import Mathlib

/-!
# Verification of a PL/0-family compiler and virtual machine

This file is a shallow embedding, in Lean 4, of the core pipeline of a
PL/0-family educational compiler written in TypeScript:

* lexer              (`src/compiler/lexer.ts`, class `Lexer`)
* recursive-descent parser (`src/compiler/parser.ts`, class `Parser`)
* symbol-table builder (`src/compiler/symbolTable.ts`, class `SymbolTableGenerator`)
* IR (quadruple) generator (class `TACGenerator`)
* optimizer passes   (class `Optimizer`: local constant folding and
  dead-code elimination)
* target code generator (class `TargetCodeGenerator`, two-pass lowering
  to P-Code with a label map)
* virtual machine    (`src/compiler/vm.ts`, class `VirtualMachine`)

Conventions of the embedding:

* JavaScript numbers are modelled as `Int` (the language is integer-only;
  all arithmetic performed by the source stays on integers).
* JavaScript strings are Lean `String`s; `parseFloat`/`Number` applied to
  quadruple arguments (always either integer literals or identifiers in
  this compiler) is modelled by `String.toInt?`.
* The VM's value stack (a JS array indexed by numbers, zero-filled at run
  start) is modelled as a total function `Int → Int`; every execution
  considered here stays within the region the source zero-initialises.
* Fallible stages return `Except`; the VM step returns the state at the
  point of a thrown runtime error, matching the fields the TS object
  holds when the exception propagates.
-/

namespace PL0

/-! ## Tokens (`src/types.ts`, `TokenType`, `Token`) -/

inductive TokenType where
  | NULL | IDENT | NUMBER
  | PLUS | MINUS | TIMES | SLASH
  | EQL | NEQ | LSS | LEQ | GTR | GEQ | BECOMES
  | LPAREN | RPAREN | COMMA | SEMICOLON | PERIOD
  | PROGRAM | CONST | VAR | PROCEDURE | BEGIN | END | ODD
  | IF | THEN | ELSE | WHILE | DO
  | CALL | READ | WRITE
  deriving DecidableEq, Repr

structure Token where
  sym : TokenType
  lexeme : String
  value : Int
  line : Nat
  deriving DecidableEq, Repr

/-! ## Lexer (`src/compiler/lexer.ts`) -/

/-- The ASCII fragment of the JS regex `\s` (the inputs considered are
ASCII source text). -/
def jsSpace (c : Char) : Bool :=
  c = ' ' || c = '\t' || c = '\n' || c = '\r' || c = '\x0b' || c = '\x0c'

/-- The `KEYWORDS` record: lower-cased identifier text to token kind. -/
def keywordSym (s : String) : Option TokenType :=
  if s = "program" then some .PROGRAM
  else if s = "const" then some .CONST
  else if s = "var" then some .VAR
  else if s = "procedure" then some .PROCEDURE
  else if s = "begin" then some .BEGIN
  else if s = "end" then some .END
  else if s = "odd" then some .ODD
  else if s = "if" then some .IF
  else if s = "then" then some .THEN
  else if s = "else" then some .ELSE
  else if s = "while" then some .WHILE
  else if s = "do" then some .DO
  else if s = "call" then some .CALL
  else if s = "read" then some .READ
  else if s = "write" then some .WRITE
  else none

/-- The single-character entries of the `SYMBOLS` record (the
two-character entries are handled by the dedicated `:`/`<`/`>` branches
of `tokenize`, and `=` / `<` / `>` also appear here as single-character
symbols). -/
def singleSym (c : Char) : Option TokenType :=
  if c = '+' then some .PLUS
  else if c = '-' then some .MINUS
  else if c = '*' then some .TIMES
  else if c = '/' then some .SLASH
  else if c = '(' then some .LPAREN
  else if c = ')' then some .RPAREN
  else if c = ',' then some .COMMA
  else if c = ';' then some .SEMICOLON
  else if c = '.' then some .PERIOD
  else if c = '=' then some .EQL
  else if c = '<' then some .LSS
  else if c = '>' then some .GTR
  else none

/-- Lexical errors: an unrecognized character (carrying the character and
the line), or a `:` not followed by `=` (carrying the line) — the two
`throw new Error(...)` sites of `Lexer.tokenize`. -/
inductive LexErr where
  | badChar (c : Char) (line : Nat)
  | badColon (line : Nat)
  /-- artifact of the fuel-based embedding; never produced when the
  scanner is run with fuel exceeding the input length, as `tokenize`
  does -/
  | fuelOut
  deriving DecidableEq, Repr

/-- Digit-string to numeric value (`parseInt(numStr, 10)`). -/
def digitsToInt (l : List Char) : Int :=
  l.foldl (fun acc c => acc * 10 + (c.toNat - '0'.toNat : Int)) 0

/-! ### Kernel-computable string helpers

The JS string operations used by the source (`toLowerCase`,
`startsWith`, `substring`, `parseFloat`/`parseInt`/`Number` on the
integer-or-identifier strings that occur in this compiler) are modelled
on the character list underlying the `String`. -/

/-- `toLowerCase` on ASCII text. -/
def asciiToLower (s : String) : String :=
  ⟨s.data.map (fun c => if 'A' ≤ c && c ≤ 'Z' then Char.ofNat (c.toNat + 32) else c)⟩

/-- `s.startsWith(pre)`. -/
def strStartsWith (s pre : String) : Bool :=
  pre.data.isPrefixOf s.data

/-- `s.substring(n)`. -/
def strDrop (s : String) (n : Nat) : String :=
  ⟨s.data.drop n⟩

/-- Numeric parse of an integer-literal string (optional `-` sign,
digits); yields `none` on identifiers and the empty string, matching
the `isNaN(parseFloat(...))` tests on the strings this compiler
produces. -/
def strToInt? (s : String) : Option Int :=
  match s.data with
  | [] => none
  | '-' :: rest =>
    if rest ≠ [] && rest.all Char.isDigit then some (-(digitsToInt rest)) else none
  | l => if l.all Char.isDigit then some (digitsToInt l) else none

/-- The scanning loop of `Lexer.tokenize`.  The identifier and number
branches consume a maximal run of alphanumeric (resp. digit) characters;
the line counter is advanced when a newline is consumed (newlines only
occur in the whitespace branch). -/
def lexGo : Nat → Nat → List Char → Except LexErr (List Token)
  | 0, _, _ => .error .fuelOut
  | _, _, [] => .ok []
  | fuel + 1, line, c :: cs =>
    if jsSpace c then
      lexGo fuel (if c = '\n' then line + 1 else line) cs
    else if c.isAlpha then
      let w := cs.takeWhile Char.isAlphanum
      let rest := cs.dropWhile Char.isAlphanum
      let ident : String := ⟨c :: w⟩
      let lower := asciiToLower ident
      let tok : Token :=
        match keywordSym lower with
        | some k => { sym := k, lexeme := lower, value := 0, line := line }
        | none => { sym := .IDENT, lexeme := ident, value := 0, line := line }
      (lexGo fuel line rest).map (tok :: ·)
    else if c.isDigit then
      let w := cs.takeWhile Char.isDigit
      let rest := cs.dropWhile Char.isDigit
      let tok : Token :=
        { sym := .NUMBER, lexeme := ⟨c :: w⟩, value := digitsToInt (c :: w), line := line }
      (lexGo fuel line rest).map (tok :: ·)
    else if c = ':' then
      if cs.head? = some '=' then
        (lexGo fuel line cs.tail).map
          (({ sym := .BECOMES, lexeme := ":=", value := 0, line := line } : Token) :: ·)
      else .error (.badColon line)
    else if c = '<' then
      if cs.head? = some '=' then
        (lexGo fuel line cs.tail).map
          (({ sym := .LEQ, lexeme := "<=", value := 0, line := line } : Token) :: ·)
      else if cs.head? = some '>' then
        (lexGo fuel line cs.tail).map
          (({ sym := .NEQ, lexeme := "<>", value := 0, line := line } : Token) :: ·)
      else
        (lexGo fuel line cs).map
          (({ sym := .LSS, lexeme := "<", value := 0, line := line } : Token) :: ·)
    else if c = '>' then
      if cs.head? = some '=' then
        (lexGo fuel line cs.tail).map
          (({ sym := .GEQ, lexeme := ">=", value := 0, line := line } : Token) :: ·)
      else
        (lexGo fuel line cs).map
          (({ sym := .GTR, lexeme := ">", value := 0, line := line } : Token) :: ·)
    else
      (singleSym c).elim (.error (.badChar c line))
        (fun k => (lexGo fuel line cs).map
          (({ sym := k, lexeme := ⟨[c]⟩, value := 0, line := line } : Token) :: ·))

/-- `Lexer.tokenize`: scan the whole source, starting at line 1 (fuel
exceeding the input length: each iteration consumes at least one
character). -/
def tokenize (src : String) : Except LexErr (List Token) :=
  lexGo (src.data.length + 1) 1 src.data

/-! ### Claim-side characterisation of lexable inputs (C9)

`lexRecognizedChar` lists the character classes named by the
specification; `lexColonsOk` states that every `:` is immediately
followed by `=`.  These definitions follow the specification's words and
are compared against the behaviour of `tokenize`. -/

/-- A character belonging to one of the recognized classes: whitespace,
letters, digits, the starters of the two-character operators, and
single-character punctuation. -/
def lexRecognizedChar (c : Char) : Bool :=
  jsSpace c || c.isAlpha || c.isDigit || c = ':' || c = '<' || c = '>'
    || (singleSym c).isSome

/-- Every occurrence of `:` is immediately followed by `=`. -/
def lexColonsOk : List Char → Bool
  | [] => true
  | c :: rest =>
    if c = ':' then
      match rest with
      | '=' :: _ => lexColonsOk rest
      | _ => false
    else lexColonsOk rest

/-- An input free of both failure conditions of the specification. -/
def lexCleanSpec (l : List Char) : Bool :=
  l.all lexRecognizedChar && lexColonsOk l

/-! ## AST (`src/types.ts`) -/

inductive ExpNode where
  | binOp (op : String) (left right : ExpNode)
  | odd (expr : ExpNode)
  | num (value : Int)
  | var (name : String)
  | paren (expr : ExpNode)

/-- Statement nodes; the `body` constructor is `BodyNode` (a begin…end
statement list), which is itself one of the statement variants. -/
inductive StmtNode where
  | assign (varName : String) (expr : ExpNode)
  | ifS (lexp : ExpNode) (thenStmt : StmtNode) (elseStmt : Option StmtNode)
  | whileS (lexp : ExpNode) (bodyStmt : StmtNode)
  | call (procName : String) (args : List ExpNode)
  | readS (vars : List String)
  | writeS (exprs : List ExpNode)
  | body (statements : List StmtNode)

mutual
inductive BlockNode where
  | mk (constDecl : Option (List (String × Int))) (varDecl : Option (List String))
      (procs : List ProcNode) (body : List StmtNode)

inductive ProcNode where
  | mk (name : String) (params : List String) (block : BlockNode)
end

def BlockNode.constDecl : BlockNode → Option (List (String × Int))
  | .mk c _ _ _ => c

def BlockNode.varDecl : BlockNode → Option (List String)
  | .mk _ v _ _ => v

def BlockNode.procs : BlockNode → List ProcNode
  | .mk _ _ p _ => p

def BlockNode.body : BlockNode → List StmtNode
  | .mk _ _ _ b => b

def ProcNode.name : ProcNode → String
  | .mk n _ _ => n

def ProcNode.params : ProcNode → List String
  | .mk _ p _ => p

def ProcNode.block : ProcNode → BlockNode
  | .mk _ _ b => b

structure ProgramNode where
  name : String
  block : BlockNode

/-! ## Parser (`src/compiler/parser.ts`)

The parser is embedded in suffix-passing style: each routine takes the
list of not-yet-consumed tokens and returns the parsed node together
with the remaining suffix (the source advances an index into a fixed
token array, which is equivalent).  The mutual recursion is made total
by a fuel parameter; `parse` is run with fuel larger than any need of
the inputs considered. -/

/-- `Parser.match`: consume one token of the expected kind. -/
def pMatch (k : TokenType) (l : List Token) : Except String (Token × List Token) :=
  match l with
  | t :: rest => if t.sym = k then .ok (t, rest) else .error "Syntax Error: unexpected token"
  | [] => .error "Syntax Error: unexpected EOF"

mutual

/-- `Parser.parseExpression`: optional sign, a term, then `+`/`-` chains;
a leading `-` is desugared to `0 - e`. -/
def parseExpression (fuel : Nat) (l : List Token) : Except String (ExpNode × List Token) :=
  match fuel with
  | 0 => .error "out of fuel"
  | fuel + 1 =>
    match l with
    | t :: rest =>
      if t.sym = .PLUS || t.sym = .MINUS then do
        let (n, l1) ← parseTerm fuel rest
        let n := if t.lexeme = "-" then ExpNode.binOp "-" (.num 0) n else n
        expLoop fuel n l1
      else do
        let (n, l1) ← parseTerm fuel l
        expLoop fuel n l1
    | [] => do
      let (n, l1) ← parseTerm fuel []
      expLoop fuel n l1

/-- The `+`/`-` continuation loop of `parseExpression`. -/
def expLoop (fuel : Nat) (node : ExpNode) (l : List Token) : Except String (ExpNode × List Token) :=
  match fuel with
  | 0 => .error "out of fuel"
  | fuel + 1 =>
    match l with
    | t :: rest =>
      if t.sym = .PLUS || t.sym = .MINUS then do
        let (r, l1) ← parseTerm fuel rest
        expLoop fuel (.binOp t.lexeme node r) l1
      else .ok (node, l)
    | [] => .ok (node, [])

/-- `Parser.parseTerm`: a factor, then `*`/`/` chains. -/
def parseTerm (fuel : Nat) (l : List Token) : Except String (ExpNode × List Token) :=
  match fuel with
  | 0 => .error "out of fuel"
  | fuel + 1 => do
    let (n, l1) ← parseFactor fuel l
    termLoop fuel n l1

/-- The `*`/`/` continuation loop of `parseTerm`. -/
def termLoop (fuel : Nat) (node : ExpNode) (l : List Token) : Except String (ExpNode × List Token) :=
  match fuel with
  | 0 => .error "out of fuel"
  | fuel + 1 =>
    match l with
    | t :: rest =>
      if t.sym = .TIMES || t.sym = .SLASH then do
        let (r, l1) ← parseFactor fuel rest
        termLoop fuel (.binOp t.lexeme node r) l1
      else .ok (node, l)
    | [] => .ok (node, [])

/-- `Parser.parseFactor`: identifier, number, or parenthesized
expression. -/
def parseFactor (fuel : Nat) (l : List Token) : Except String (ExpNode × List Token) :=
  match fuel with
  | 0 => .error "out of fuel"
  | fuel + 1 =>
    match l with
    | t :: rest =>
      if t.sym = .IDENT then .ok (.var t.lexeme, rest)
      else if t.sym = .NUMBER then .ok (.num t.value, rest)
      else if t.sym = .LPAREN then do
        let (e, l1) ← parseExpression fuel rest
        let (_, l2) ← pMatch .RPAREN l1
        .ok (.paren e, l2)
      else .error "Syntax Error: unexpected factor"
    | [] => .error "Syntax Error: unexpected factor"

/-- `Parser.parseLExp`: `odd e`, or `e relop e`. -/
def parseLExp (fuel : Nat) (l : List Token) : Except String (ExpNode × List Token) :=
  match fuel with
  | 0 => .error "out of fuel"
  | fuel + 1 =>
    match l with
    | t :: rest =>
      if t.sym = .ODD then do
        let (e, l1) ← parseExpression fuel rest
        .ok (.odd e, l1)
      else do
        let (left, l1) ← parseExpression fuel l
        match l1 with
        | t1 :: rest1 =>
          if t1.sym = .EQL || t1.sym = .NEQ || t1.sym = .LSS
              || t1.sym = .LEQ || t1.sym = .GTR || t1.sym = .GEQ then do
            let (right, l2) ← parseExpression fuel rest1
            .ok (.binOp t1.lexeme left right, l2)
          else .error "Syntax Error: Expected relational operator in lexp"
        | [] => .error "Syntax Error: Expected relational operator in lexp"
    | [] => do
      let (_, l1) ← parseExpression fuel []
      match l1 with
      | _ :: _ => .error "Syntax Error: Expected relational operator in lexp"
      | [] => .error "Syntax Error: Expected relational operator in lexp"

/-- The `do…while` over `expr (, expr)*` used by `call` arguments and
`write`. -/
def exprsLoop (fuel : Nat) (acc : List ExpNode) (l : List Token) : Except String (List ExpNode × List Token) :=
  match fuel with
  | 0 => .error "out of fuel"
  | fuel + 1 => do
    let (e, l1) ← parseExpression fuel l
    match l1 with
    | t :: rest =>
      if t.sym = .COMMA then exprsLoop fuel (acc ++ [e]) rest
      else .ok (acc ++ [e], l1)
    | [] => .ok (acc ++ [e], [])

/-- The `do…while` over `ident (, ident)*` used by `read`. -/
def idsLoop (fuel : Nat) (acc : List String) (l : List Token) : Except String (List String × List Token) :=
  match fuel with
  | 0 => .error "out of fuel"
  | fuel + 1 => do
    let (t, l1) ← pMatch .IDENT l
    match l1 with
    | t1 :: rest =>
      if t1.sym = .COMMA then idsLoop fuel (acc ++ [t.lexeme]) rest
      else .ok (acc ++ [t.lexeme], l1)
    | [] => .ok (acc ++ [t.lexeme], [])

/-- `Parser.parseStatement`: dispatch on the lookahead token. -/
def parseStatement (fuel : Nat) (l : List Token) : Except String (StmtNode × List Token) :=
  match fuel with
  | 0 => .error "out of fuel"
  | fuel + 1 =>
    match l with
    | t :: rest =>
      if t.sym = .IDENT then do
        let (_, l1) ← pMatch .BECOMES rest
        let (e, l2) ← parseExpression fuel l1
        .ok (.assign t.lexeme e, l2)
      else if t.sym = .IF then do
        let (c, l1) ← parseLExp fuel rest
        let (_, l2) ← pMatch .THEN l1
        let (s, l3) ← parseStatement fuel l2
        match l3 with
        | t3 :: rest3 =>
          if t3.sym = .ELSE then do
            let (s2, l4) ← parseStatement fuel rest3
            .ok (.ifS c s (some s2), l4)
          else .ok (.ifS c s none, l3)
        | [] => .ok (.ifS c s none, [])
      else if t.sym = .WHILE then do
        let (c, l1) ← parseLExp fuel rest
        let (_, l2) ← pMatch .DO l1
        let (s, l3) ← parseStatement fuel l2
        .ok (.whileS c s, l3)
      else if t.sym = .CALL then do
        let (idt, l1) ← pMatch .IDENT rest
        match l1 with
        | t1 :: rest1 =>
          if t1.sym = .LPAREN then
            match rest1 with
            | t2 :: _ =>
              if t2.sym = .RPAREN then do
                let (_, l2) ← pMatch .RPAREN rest1
                .ok (.call idt.lexeme [], l2)
              else do
                let (args, l2) ← exprsLoop fuel [] rest1
                let (_, l3) ← pMatch .RPAREN l2
                .ok (.call idt.lexeme args, l3)
            | [] => do
              let (args, l2) ← exprsLoop fuel [] []
              let (_, l3) ← pMatch .RPAREN l2
              .ok (.call idt.lexeme args, l3)
          else .ok (.call idt.lexeme [], l1)
        | [] => .ok (.call idt.lexeme [], [])
      else if t.sym = .BEGIN then
        parseBody fuel l
      else if t.sym = .READ then do
        let (_, l1) ← pMatch .LPAREN rest
        let (vs, l2) ← idsLoop fuel [] l1
        let (_, l3) ← pMatch .RPAREN l2
        .ok (.readS vs, l3)
      else if t.sym = .WRITE then do
        let (_, l1) ← pMatch .LPAREN rest
        let (es, l2) ← exprsLoop fuel [] l1
        let (_, l3) ← pMatch .RPAREN l2
        .ok (.writeS es, l3)
      else .error "Syntax Error: Unexpected token"
    | [] => .error "Syntax Error: Unexpected token"

/-- `Parser.parseBody`: `begin`, a first statement, then the
semicolon-separated continuation (handled by `bodyLoop`). -/
def parseBody (fuel : Nat) (l : List Token) : Except String (StmtNode × List Token) :=
  match fuel with
  | 0 => .error "out of fuel"
  | fuel + 1 => do
    let (_, l1) ← pMatch .BEGIN l
    let (s, l2) ← parseStatement fuel l1
    let (ss, l3) ← bodyLoop fuel [s] l2
    .ok (.body ss, l3)

/-- The statement-list loop of `parseBody` followed by the final
`match(END)`: while the lookahead is `;`, consume it; if the token after
it is not `end`, parse another statement.  A `;` immediately followed by
`end` therefore terminates the loop without adding a statement. -/
def bodyLoop (fuel : Nat) (acc : List StmtNode) (l : List Token) : Except String (List StmtNode × List Token) :=
  match fuel with
  | 0 => .error "out of fuel"
  | fuel + 1 =>
    match l with
    | t :: rest =>
      if t.sym = .SEMICOLON then
        match rest with
        | t2 :: _ =>
          if t2.sym = .END then do
            let (_, r) ← pMatch .END rest
            .ok (acc, r)
          else do
            let (s, l2) ← parseStatement fuel rest
            bodyLoop fuel (acc ++ [s]) l2
        | [] => do
          let (s, l2) ← parseStatement fuel []
          bodyLoop fuel (acc ++ [s]) l2
      else do
        let (_, r) ← pMatch .END l
        .ok (acc, r)
    | [] => do
      let (_, r) ← pMatch .END []
      .ok (acc, r)

end

/-- The `do…while` of `Parser.parseConstDecl` over `ident := number`
pairs. -/
def constLoop (fuel : Nat) (acc : List (String × Int)) (l : List Token) :
    Except String (List (String × Int) × List Token) :=
  match fuel with
  | 0 => .error "out of fuel"
  | fuel + 1 => do
    let (idt, l1) ← pMatch .IDENT l
    let (_, l2) ← pMatch .BECOMES l1
    let (numt, l3) ← pMatch .NUMBER l2
    match l3 with
    | t :: rest =>
      if t.sym = .COMMA then constLoop fuel (acc ++ [(idt.lexeme, numt.value)]) rest
      else .ok (acc ++ [(idt.lexeme, numt.value)], l3)
    | [] => .ok (acc ++ [(idt.lexeme, numt.value)], [])

/-- `Parser.parseConstDecl`. -/
def parseConstDecl (fuel : Nat) (l : List Token) : Except String (List (String × Int) × List Token) := do
  let (_, l1) ← pMatch .CONST l
  let (cs, l2) ← constLoop fuel [] l1
  let (_, l3) ← pMatch .SEMICOLON l2
  .ok (cs, l3)

/-- The `do…while` of `Parser.parseVarDecl` over identifiers. -/
def varsLoop (fuel : Nat) (acc : List String) (l : List Token) : Except String (List String × List Token) :=
  match fuel with
  | 0 => .error "out of fuel"
  | fuel + 1 => do
    let (idt, l1) ← pMatch .IDENT l
    match l1 with
    | t :: rest =>
      if t.sym = .COMMA then varsLoop fuel (acc ++ [idt.lexeme]) rest
      else .ok (acc ++ [idt.lexeme], l1)
    | [] => .ok (acc ++ [idt.lexeme], [])

/-- `Parser.parseVarDecl` (the trailing semicolon is optional in the
source). -/
def parseVarDecl (fuel : Nat) (l : List Token) : Except String (List String × List Token) := do
  let (_, l1) ← pMatch .VAR l
  let (vs, l2) ← varsLoop fuel [] l1
  match l2 with
  | t :: rest =>
    if t.sym = .SEMICOLON then .ok (vs, rest)
    else .ok (vs, l2)
  | [] => .ok (vs, [])

/-- The parameter list of `Parser.parseProc` (possibly empty). -/
def paramsLoop (fuel : Nat) (acc : List String) (l : List Token) : Except String (List String × List Token) :=
  match fuel with
  | 0 => .error "out of fuel"
  | fuel + 1 => do
    let (idt, l1) ← pMatch .IDENT l
    match l1 with
    | t :: rest =>
      if t.sym = .COMMA then paramsLoop fuel (acc ++ [idt.lexeme]) rest
      else .ok (acc ++ [idt.lexeme], l1)
    | [] => .ok (acc ++ [idt.lexeme], [])

mutual

/-- `Parser.parseProc`: `procedure id ( params ) ; block ;`. -/
def parseProc (fuel : Nat) (l : List Token) : Except String (ProcNode × List Token) :=
  match fuel with
  | 0 => .error "out of fuel"
  | fuel + 1 => do
    let (_, l1) ← pMatch .PROCEDURE l
    let (idt, l2) ← pMatch .IDENT l1
    let (_, l3) ← pMatch .LPAREN l2
    let (params, l4) ←
      match l3 with
      | t :: _ =>
        if t.sym = .IDENT then paramsLoop fuel [] l3
        else pure ([], l3)
      | [] => pure ([], l3)
    let (_, l5) ← pMatch .RPAREN l4
    let (_, l6) ← pMatch .SEMICOLON l5
    let (blk, l7) ← parseBlock fuel l6
    let (_, l8) ← pMatch .SEMICOLON l7
    .ok (.mk idt.lexeme params blk, l8)

/-- The `while (peek = procedure)` loop of `Parser.parseBlock`. -/
def procsLoop (fuel : Nat) (acc : List ProcNode) (l : List Token) : Except String (List ProcNode × List Token) :=
  match fuel with
  | 0 => .error "out of fuel"
  | fuel + 1 =>
    match l with
    | t :: _ =>
      if t.sym = .PROCEDURE then do
        let (p, l1) ← parseProc fuel l
        procsLoop fuel (acc ++ [p]) l1
      else .ok (acc, l)
    | [] => .ok (acc, [])

/-- `Parser.parseBlock`: optional const-decl, optional var-decl,
procedures, body. -/
def parseBlock (fuel : Nat) (l : List Token) : Except String (BlockNode × List Token) :=
  match fuel with
  | 0 => .error "out of fuel"
  | fuel + 1 => do
    let (constDecl, l1) ←
      match l with
      | t :: _ =>
        if t.sym = .CONST then do
          let (cs, l1) ← parseConstDecl fuel l
          pure (some cs, l1)
        else pure (none, l)
      | [] => pure (none, l)
    let (varDecl, l2) ←
      match l1 with
      | t :: _ =>
        if t.sym = .VAR then do
          let (vs, l2) ← parseVarDecl fuel l1
          pure (some vs, l2)
        else pure (none, l1)
      | [] => pure (none, l1)
    let (procs, l3) ← procsLoop fuel [] l2
    let (bodyS, l4) ← parseBody fuel l3
    match bodyS with
    | .body ss => .ok (.mk constDecl varDecl procs ss, l4)
    | _ => .error "Syntax Error: body expected"

end

/-- `Parser.parse`: `program id ; block .`. -/
def parse (fuel : Nat) (l : List Token) : Except String (ProgramNode × List Token) := do
  let (_, l1) ← pMatch .PROGRAM l
  let (idt, l2) ← pMatch .IDENT l1
  let (_, l3) ← pMatch .SEMICOLON l2
  let (blk, l4) ← parseBlock fuel l3
  let (_, l5) ← pMatch .PERIOD l4
  .ok ({ name := idt.lexeme, block := blk }, l5)

/-! ## String-keyed records

JS `Record<string, T>` objects used by the generators (`procLabels`,
`constMap`, `labelMap`, `procMap`) are modelled as association lists
with first-match lookup, overwrite-on-assign, and key deletion. -/

def recordGet? {α : Type} (m : List (String × α)) (k : String) : Option α :=
  (m.find? (fun p => p.1 = k)).map (·.2)

def recordSet {α : Type} (m : List (String × α)) (k : String) (v : α) : List (String × α) :=
  if m.any (fun p => p.1 = k) then
    m.map (fun p => if p.1 = k then (k, v) else p)
  else m ++ [(k, v)]

def recordDel {α : Type} (m : List (String × α)) (k : String) : List (String × α) :=
  m.filter (fun p => p.1 ≠ k)

/-! ## Symbol table (`src/types.ts` `SymbolEntry`/`SymbolTable`,
`src/compiler/symbolTable.ts` `SymbolTableGenerator`) -/

inductive SymKind where
  | constant | variable | procedure
  deriving DecidableEq, Repr

/-- The `addr` field of `SymbolEntry` is `number | string` in the source
(`''` for constants and procedures, a stack offset for variables). -/
inductive SAddr where
  | int (n : Int)
  | str (s : String)
  deriving DecidableEq, Repr

structure SymbolEntry where
  name : String
  kind : SymKind
  /-- value for a constant, lexical level otherwise -/
  valLevel : Int
  addr : SAddr
  size : Int
  numParams : Nat := 0
  deriving DecidableEq, Repr

inductive SymTab where
  | mk (name : String) (level : Nat) (entries : List SymbolEntry)
      (children : List SymTab) (varOffset : Int)

def SymTab.name : SymTab → String
  | .mk n _ _ _ _ => n

def SymTab.level : SymTab → Nat
  | .mk _ l _ _ _ => l

def SymTab.entries : SymTab → List SymbolEntry
  | .mk _ _ e _ _ => e

def SymTab.children : SymTab → List SymTab
  | .mk _ _ _ c _ => c

def SymTab.varOffset : SymTab → Int
  | .mk _ _ _ _ v => v

/-- Constant declarations: registered with their value, no storage. -/
def constEntries (cd : Option (List (String × Int))) : List SymbolEntry :=
  match cd with
  | some cs =>
    cs.map (fun c =>
      { name := c.1, kind := .constant, valLevel := c.2, addr := .str "", size := 1 })
  | none => []

/-- Variable declarations: sequential offsets starting at the scope's
`varOffset` (3 at scope creation). -/
def varEntriesFrom (level : Nat) (vd : Option (List String)) : List SymbolEntry :=
  match vd with
  | some vs =>
    vs.enum.map (fun p =>
      { name := p.2, kind := .variable, valLevel := (level : Int),
        addr := .int (3 + (p.1 : Int)), size := 1 })
  | none => []

/-- Parameters of a procedure with `n` parameters: the `i`-th (0-based)
gets offset `-(n - i)`, i.e. `-n … -1` left to right. -/
def paramEntries (level : Nat) (params : List String) : List SymbolEntry :=
  params.enum.map (fun p =>
    { name := p.2, kind := .variable, valLevel := (level : Int),
      addr := .int (-(params.length : Int) + (p.1 : Int)), size := 1 })

mutual

/-- `SymbolTableGenerator.genBlock`, building the scope for one block:
consts, then vars (bumping `varOffset` from its start value 3), then one
procedure entry and one child scope per nested procedure.  `startEntries`
holds the parameters already registered in a procedure scope. -/
def genBlockTab (level : Nat) (tabName : String) (startEntries : List SymbolEntry)
    (blk : BlockNode) : SymTab :=
  match blk with
  | .mk cd vd procs _body =>
    let es := startEntries ++ constEntries cd ++ varEntriesFrom level vd
    let off : Int := 3 + (match vd with | some vs => (vs.length : Int) | none => 0)
    let (procEs, children) := genProcsTab level procs
    .mk tabName level (es ++ procEs) children off

/-- The procedure loop of `genBlock`: each procedure is registered in the
enclosing scope (size back-filled with the child scope's final
`varOffset`) and produces one child scope one level deeper whose entries
start with the parameters at negative offsets. -/
def genProcsTab (level : Nat) : List ProcNode → List SymbolEntry × List SymTab
  | [] => ([], [])
  | .mk pname pparams pblock :: ps =>
    let child := genBlockTab (level + 1) pname (paramEntries (level + 1) pparams) pblock
    let procEntry : SymbolEntry :=
      { name := pname, kind := .procedure, valLevel := (level : Int), addr := .str "",
        size := child.varOffset, numParams := pparams.length }
    let (es, cs) := genProcsTab level ps
    (procEntry :: es, child :: cs)

end

/-- `SymbolTableGenerator.generate`. -/
def stGenerate (ast : ProgramNode) : SymTab :=
  genBlockTab 0 "Global" [] ast.block

/-! ## Quadruples and the IR generator (`TACGenerator`) -/

structure Quad where
  id : Nat
  op : String
  arg1 : String
  arg2 : String
  result : String
  deriving DecidableEq, Repr

/-- The mutable state of a `TACGenerator` instance. -/
structure TacGen where
  code : List Quad
  tempCount : Nat
  labelCount : Nat
  currentTable : SymTab
  procLabels : List (String × String)

/-- `new TACGenerator(symbolTable)`. -/
def TacGen.init (tbl : SymTab) : TacGen :=
  { code := [], tempCount := 0, labelCount := 0, currentTable := tbl, procLabels := [] }

def TacGen.newTemp (g : TacGen) : String × TacGen :=
  ("T" ++ toString (g.tempCount + 1), { g with tempCount := g.tempCount + 1 })

def TacGen.newLabel (g : TacGen) : String × TacGen :=
  ("L" ++ toString (g.labelCount + 1), { g with labelCount := g.labelCount + 1 })

def TacGen.emit (g : TacGen) (op arg1 arg2 result : String) : TacGen :=
  { g with
    code := g.code ++
      [{ id := g.code.length, op := op, arg1 := arg1, arg2 := arg2, result := result }] }

/-- `TACGenerator.lookup`: searches only the current table's own entries
(the source's loop breaks after the first table). -/
def TacGen.lookup (g : TacGen) (name : String) : Option SymbolEntry :=
  g.currentTable.entries.find? (fun e => e.name = name)

/-- `TACGenerator.genExp`: translate an expression, returning the name of
the temporary holding its value. -/
def genExp (g : TacGen) : ExpNode → String × TacGen
  | .num v =>
    let p := g.newTemp
    (p.1, p.2.emit ":=" (toString v) "" p.1)
  | .var s =>
    match g.lookup s with
    | some e =>
      if e.kind = .constant then
        let p := g.newTemp
        (p.1, p.2.emit ":=" (toString e.valLevel) "" p.1)
      else
        let p := g.newTemp
        (p.1, p.2.emit ":=" s "" p.1)
    | none =>
      let p := g.newTemp
      (p.1, p.2.emit ":=" s "" p.1)
  | .binOp op l r =>
    let p1 := genExp g l
    let p2 := genExp p1.2 r
    let p := p2.2.newTemp
    (p.1, p.2.emit op p1.1 p2.1 p.1)
  | .odd e =>
    let p1 := genExp g e
    let p := p1.2.newTemp
    (p.1, p.2.emit "ODD" p1.1 "" p.1)
  | .paren e => genExp g e

mutual

/-- `TACGenerator.genStatement`. -/
def genStmt (g : TacGen) : StmtNode → TacGen
  | .assign v e =>
    let p := genExp g e
    p.2.emit ":=" p.1 "" v
  | .ifS c thenS elseS =>
    let pc := genExp g c
    let pElse := pc.2.newLabel
    let pEnd := pElse.2.newLabel
    let g := pEnd.2.emit "JZ" pc.1 "" pElse.1
    let g := genStmt g thenS
    let g := g.emit "JMP" "" "" pEnd.1
    let g := g.emit "LABEL" "" "" pElse.1
    let g := match elseS with
      | some s => genStmt g s
      | none => g
    g.emit "LABEL" "" "" pEnd.1
  | .whileS c bodyS =>
    let pBegin := g.newLabel
    let pEnd := pBegin.2.newLabel
    let g := pEnd.2.emit "LABEL" "" "" pBegin.1
    let pc := genExp g c
    let g := pc.2.emit "JZ" pc.1 "" pEnd.1
    let g := genStmt g bodyS
    let g := g.emit "JMP" "" "" pBegin.1
    g.emit "LABEL" "" "" pEnd.1
  | .call procName args =>
    let g := args.foldl (fun g arg =>
      let p := genExp g arg
      p.2.emit "PARAM" p.1 "" "") g
    let procLabel := (recordGet? g.procLabels procName).getD ("proc_" ++ procName)
    let nargs := toString args.length
    let pr := g.newTemp
    pr.2.emit "CALL" procLabel nargs pr.1
  | .readS vs =>
    vs.foldl (fun g v =>
      let p := g.newTemp
      let g := p.2.emit "READ" "" "" p.1
      g.emit ":=" p.1 "" v) g
  | .writeS es =>
    es.foldl (fun g e =>
      let p := genExp g e
      p.2.emit "WRITE" p.1 "" "") g
  | .body ss => genStmts g ss

def genStmts (g : TacGen) : List StmtNode → TacGen
  | [] => g
  | s :: ss => genStmts (genStmt g s) ss

end

/-- `TACGenerator.genBlockBody`: emit the block's own body. -/
def genBlockBody (g : TacGen) (blk : BlockNode) : TacGen :=
  genStmts g blk.body

mutual

/-- `TACGenerator.genBlockProcs`: for each procedure, a jump over its
body, its label, its (recursively translated) block and a `RET`. -/
def genBlockProcs (g : TacGen) : BlockNode → TacGen
  | .mk _ _ procs _ => genProcsList g procs

def genProcsList (g : TacGen) : List ProcNode → TacGen
  | [] => g
  | .mk pname _pparams pblock :: ps =>
    let procLabel := "proc_" ++ pname
    let g := { g with procLabels := recordSet g.procLabels pname procLabel }
    let pSkip := g.newLabel
    let skipLabel := pSkip.1
    let g := pSkip.2.emit "JMP" "" "" skipLabel
    let g := g.emit "LABEL" "" "" procLabel
    let prevTable := g.currentTable
    let g := match g.currentTable.children.find? (fun t => t.name = pname) with
      | some child => { g with currentTable := child }
      | none => g
    let g := genBlockProcs g pblock
    let g := genBlockBody g pblock
    let g := g.emit "RET" pname "" ""
    let g := { g with currentTable := prevTable }
    let g := g.emit "LABEL" "" "" skipLabel
    genProcsList g ps

end

/-- `TACGenerator.generate`: reset `code`, emit the jump to `proc_main`,
all procedure bodies, the main body under `proc_main`, and `END`.  The
temporary/label counters and `procLabels` of the instance are *not*
reset. -/
def tacGenerateFrom (g : TacGen) (ast : ProgramNode) : TacGen :=
  let g := { g with code := [] }
  let mainLabel := "proc_main"
  let g := g.emit "GOTO" mainLabel "" ""
  let g := genBlockProcs g ast.block
  let g := g.emit "LABEL" "" "" mainLabel
  let g := genBlockBody g ast.block
  g.emit "END" "" "" ""

/-- A fresh generation run: `new TACGenerator(tbl)` followed by
`generate(ast)`. -/
def tacGenerate (tbl : SymTab) (ast : ProgramNode) : List Quad :=
  (tacGenerateFrom (TacGen.init tbl) ast).code

/-! ## Optimizer (class `Optimizer`): the local pass and dead-code
elimination

The log entries emitted by the source are a diagnostic artifact never
consumed by later stages and are not modelled. -/

/-- First character is a letter (the JS regex `/^[a-zA-Z]/`). -/
def headIsAlpha (s : String) : Bool :=
  match s.data with
  | c :: _ => c.isAlpha
  | [] => false

/-- `Optimizer.isTempOrVar`. -/
def isTempOrVar (s : String) : Bool :=
  s ≠ "" && (strStartsWith s "T" || headIsAlpha s)

/-- `Optimizer.isVar`: starts with a letter but not with `T`. -/
def isVarName (s : String) : Bool :=
  s ≠ "" && headIsAlpha s && !strStartsWith s "T"

/-- `Optimizer.applyAlgebraicSimplification`: `x+0→x`, `x*1→x`, `x*0→0`,
`x*2→x+x`. -/
def applyAlgebraicSimplification (q : Quad) : Option Quad :=
  if q.op = "+" && q.arg2 = "0" then some { q with op := ":=", arg2 := "" }
  else if q.op = "*" && q.arg2 = "1" then some { q with op := ":=", arg2 := "" }
  else if q.op = "*" && q.arg2 = "0" then some { q with op := ":=", arg1 := "0", arg2 := "" }
  else if q.op = "*" && q.arg2 = "2" then some { q with op := "+", arg2 := q.arg1 }
  else none

/-- The operators eligible for constant folding. -/
def foldOps : List String :=
  ["+", "-", "*", "/", "ODD", "=", "<>", "<", "<=", ">", ">="]

/-- The `switch` of the constant-folding step: `/` uses `Math.floor` of
the exact quotient, i.e. floor division, and is refused (`null`) on
divisor 0; `ODD` uses the JS remainder (truncated, `Int.tmod`);
relational operators produce 1/0. -/
def foldEval (op : String) (v1 v2 : Int) : Option Int :=
  if op = "+" then some (v1 + v2)
  else if op = "-" then some (v1 - v2)
  else if op = "*" then some (v1 * v2)
  else if op = "/" then (if v2 ≠ 0 then some (Int.fdiv v1 v2) else none)
  else if op = "ODD" then some (Int.tmod v1 2)
  else if op = "=" then some (if v1 = v2 then 1 else 0)
  else if op = "<>" then some (if v1 ≠ v2 then 1 else 0)
  else if op = "<" then some (if v1 < v2 then 1 else 0)
  else if op = "<=" then some (if v1 ≤ v2 then 1 else 0)
  else if op = ">" then some (if v1 > v2 then 1 else 0)
  else if op = ">=" then some (if v1 ≥ v2 then 1 else 0)
  else none

/-- One iteration of the loop of `Optimizer.optimizeLocalBasic`:
reset the constant map at block boundaries (pushing `LABEL`s through
unchanged), propagate known constants into the arguments, apply
algebraic simplification, fold fully-constant operations, and record
constant assignments. -/
def olbStep (cm : List (String × Int)) (q : Quad) : List (String × Int) × Quad :=
  let boundary := q.op = "LABEL" || strStartsWith q.op "J" || q.op = "CALL" || q.op = "RET"
  let cm := if boundary then [] else cm
  if q.op = "LABEL" then (cm, q)
  else
    let q :=
      if q.arg1 ≠ "" then
        match recordGet? cm q.arg1 with
        | some v => { q with arg1 := toString v }
        | none => q
      else q
    let q :=
      if q.arg2 ≠ "" then
        match recordGet? cm q.arg2 with
        | some v => { q with arg2 := toString v }
        | none => q
      else q
    let q :=
      match applyAlgebraicSimplification q with
      | some q' => q'
      | none => q
    let q :=
      if foldOps.contains q.op then
        match strToInt? q.arg1 with
        | some v1 =>
          if q.arg2 = "" then
            match foldEval q.op v1 0 with
            | some res => { q with op := ":=", arg1 := toString res, arg2 := "" }
            | none => q
          else
            match strToInt? q.arg2 with
            | some v2 =>
              match foldEval q.op v1 v2 with
              | some res => { q with op := ":=", arg1 := toString res, arg2 := "" }
              | none => q
            | none => q
        | none => q
      else q
    let cm :=
      if q.op = ":=" && isTempOrVar q.result then
        match strToInt? q.arg1 with
        | some v => recordSet cm q.result v
        | none => recordDel cm q.result
      else cm
    (cm, q)

/-- `Optimizer.optimizeLocalBasic`, pass 1.1 (constant
propagation/folding and algebraic simplification). -/
def optimizeLocalBasic (tac : List Quad) : List Quad :=
  (tac.foldl (fun (st : List Quad × List (String × Int)) q =>
    let r := olbStep st.2 q
    (st.1 ++ [r.2], r.1)) ([], [])).1

/-! ### Dead-code elimination (`Optimizer.eliminateDeadCode`) -/

/-- JS `Set.add`. -/
def setAdd (s : List String) (x : String) : List String :=
  if s.contains x then s else s ++ [x]

/-- The opcode filter of the dead-code check: quadruples whose op is a
jump (`J…`), `CALL`, `READ`, `WRITE` or `LABEL` are never candidates. -/
def dceDroppableOp (op : String) : Bool :=
  !strStartsWith op "J" && op ≠ "CALL" && op ≠ "READ" && op ≠ "WRITE" && op ≠ "LABEL"

/-- The full dead test of one quadruple against a live set. -/
def dceIsDead (q : Quad) (live : List String) : Bool :=
  q.result ≠ "" && dceDroppableOp q.op && strStartsWith q.result "T" && !live.contains q.result

/-- The live-set update performed for a kept quadruple: the result is
killed, both arguments become live when they are temporaries or start
with a letter. -/
def dceUpdate (q : Quad) (live : List String) : List String :=
  let live := if q.result ≠ "" then live.filter (· ≠ q.result) else live
  let live := if q.arg1 ≠ "" && (strStartsWith q.arg1 "T" || isVarName q.arg1) then
      setAdd live q.arg1 else live
  if q.arg2 ≠ "" && (strStartsWith q.arg2 "T" || isVarName q.arg2) then
    setAdd live q.arg2 else live

/-- The backward scan of `Optimizer.eliminateDeadCode`: processes the
list from the end (the recursive call handles the suffix first),
dropping dead quadruples and threading the live set. -/
def dceGo : List Quad → List String × List Quad
  | [] => ([], [])
  | q :: rest =>
    let p := dceGo rest
    if dceIsDead q p.1 then p
    else (dceUpdate q p.1, q :: p.2)

/-- `Optimizer.eliminateDeadCode`, pass 1.3. -/
def eliminateDeadCode (tac : List Quad) : List Quad :=
  (dceGo tac).2

/-! ### Claim-side formalisation of C7

The claim reads: the pass "drops exactly those quadruples whose result
is a temporary (`T`-prefixed name) that is never read before being
reassigned or before the scan ends".  `claimDeadInSuffix x rest` is the
literal reading over the input sequence: walking the quadruples after
the defining one, `x` is dead when it is reassigned (or the sequence
ends) before being read. -/

def claimDeadInSuffix (x : String) : List Quad → Bool
  | [] => true
  | q :: rest =>
    if q.arg1 = x || q.arg2 = x then false
    else if q.result = x then true
    else claimDeadInSuffix x rest

/-- The filter the claim describes, applied to the input sequence. -/
def dceClaimSpec : List Quad → List Quad
  | [] => []
  | q :: rest =>
    if strStartsWith q.result "T" && claimDeadInSuffix q.result rest then dceClaimSpec rest
    else q :: dceClaimSpec rest

/-- The live set recomputed from an (already filtered) quadruple list:
the same use/def update as the scan, over the retained suffix. -/
def dceLiveOf : List Quad → List String
  | [] => []
  | q :: rest => dceUpdate q (dceLiveOf rest)

/-! ## Target code generator (class `TargetCodeGenerator`) -/

inductive PCodeF where
  | LIT | OPR | LOD | STO | CAL | INT | JMP | JPC | RED | WRT
  deriving DecidableEq, Repr

/-- Instruction operands are `number | string` in the source: numeric
addresses, or symbolic label names awaiting pass 2. -/
inductive Addr where
  | num (n : Int)
  | lab (s : String)
  deriving DecidableEq, Repr

structure Instruction where
  f : PCodeF
  l : Int
  a : Addr
  deriving DecidableEq, Repr

mutual

/-- `TargetCodeGenerator.buildProcMap`: all procedure entries of the
scope tree, keyed by name (preorder; `Record` assignment overwrites). -/
def buildProcMap (acc : List (String × SymbolEntry)) : SymTab → List (String × SymbolEntry)
  | .mk _ _ entries children _ =>
    let acc := entries.foldl (fun acc e =>
      if e.kind = .procedure then recordSet acc e.name e else acc) acc
    buildProcMapList acc children

def buildProcMapList (acc : List (String × SymbolEntry)) :
    List SymTab → List (String × SymbolEntry)
  | [] => acc
  | c :: cs => buildProcMapList (buildProcMap acc c) cs

end

mutual

/-- `TargetCodeGenerator.getScopeStack`: the path of scopes from the root
to the (first, depth-first) scope with the given name. -/
def getScopeStack (table : SymTab) (targetName : String) (path : List SymTab) :
    Option (List SymTab) :=
  match table with
  | .mk nm lv es children off =>
    let currentPath := path ++ [SymTab.mk nm lv es children off]
    if nm = targetName then some currentPath
    else getScopeStackList children targetName currentPath

/-- The child loop of `getScopeStack` (first hit wins). -/
def getScopeStackList (cs : List SymTab) (targetName : String) (path : List SymTab) :
    Option (List SymTab) :=
  match cs with
  | [] => none
  | c :: rest =>
    match getScopeStack c targetName path with
    | some r => some r
    | none => getScopeStackList rest targetName path

end

/-- `TargetCodeGenerator.findSymbol`: walk the scope path innermost
first; the level difference is the number of hops to the declaring
scope. -/
def findSymbol (root : SymTab) (name scopeName : String) :
    Option (SymbolEntry × Nat) :=
  match getScopeStack root scopeName [] with
  | none => none
  | some stack =>
    let n := stack.length
    (List.range n).foldl (fun res j =>
      match res with
      | some r => some r
      | none =>
        let i := n - 1 - j
        match (stack.drop i).head? with
        | some table =>
          match table.entries.find? (fun e => e.name = name) with
          | some entry => some (entry, (n - 1) - i)
          | none => none
        | none => none) none

/-- `quad.result.replace('proc_','')` as used on `proc_*` labels (the JS
`replace` removes the first occurrence; on these labels it is the
prefix). -/
def stripProcPrefix (s : String) : String :=
  if strStartsWith s "proc_" then strDrop s 5 else s

/-- The numeric value of a variable's `addr` field (`Number(entry.addr)`;
only variables, whose `addr` is numeric, reach this conversion). -/
def addrVal : SAddr → Int
  | .int n => n
  | .str _ => 0

/-- State threaded through pass 1: emitted instructions, label map, and
the name of the current procedure scope. -/
structure TcgSt where
  instructions : List Instruction
  labelMap : List (String × Nat)
  currentProc : String

def TcgSt.emit (st : TcgSt) (f : PCodeF) (l : Int) (a : Addr) : TcgSt :=
  { st with instructions := st.instructions ++ [{ f := f, l := l, a := a }] }

/-- `TargetCodeGenerator.genOperand`: numeric literals via `LIT`,
temporaries from their reserved slot `20 + id`, constants via `LIT`,
variables via `LOD` with level difference. -/
def genOperand (root : SymTab) (st : TcgSt) (arg : String) : TcgSt :=
  if arg = "" then st
  else if (strToInt? arg).isSome then st.emit .LIT 0 (.num ((strToInt? arg).getD 0))
  else if strStartsWith arg "T" then
    st.emit .LOD 0 (.num (20 + ((strToInt? (strDrop arg 1)).getD 0)))
  else
    match findSymbol root arg st.currentProc with
    | some (entry, levelDiff) =>
      if entry.kind = .constant then st.emit .LIT 0 (.num entry.valLevel)
      else if entry.kind = .variable then
        st.emit .LOD (levelDiff : Int) (.num (addrVal entry.addr))
      else st
    | none => st

/-- `TargetCodeGenerator.genStore`: named symbols via `STO` with level
difference, temporaries to their reserved slot `20 + id`. -/
def genStore (root : SymTab) (st : TcgSt) (target : String) : TcgSt :=
  if target = "" then st
  else
    match findSymbol root target st.currentProc with
    | some (entry, levelDiff) =>
      st.emit .STO (levelDiff : Int) (.num (addrVal entry.addr))
    | none =>
      if strStartsWith target "T" then
        st.emit .STO 0 (.num (20 + ((strToInt? (strDrop target 1)).getD 0)))
      else st

/-- One quadruple of pass 1 of `TargetCodeGenerator.generate`. -/
def tcgStep (root : SymTab) (procMap : List (String × SymbolEntry)) (st : TcgSt)
    (q : Quad) : TcgSt :=
  if q.op = "LABEL" then
    let st := { st with labelMap := recordSet st.labelMap q.result st.instructions.length }
    if strStartsWith q.result "proc_" then
      let procName := stripProcPrefix q.result
      let currentProc := if procName = "main" then "Global" else procName
      let st := { st with currentProc := currentProc }
      let size : Int :=
        if currentProc = "Global" then root.varOffset
        else
          match recordGet? procMap currentProc with
          | some e => e.size
          | none => 3
      st.emit .INT 0 (.num (size + 100))
    else st
  else if q.op = "GOTO" || q.op = "JMP" then
    st.emit .JMP 0 (.lab (if q.result ≠ "" then q.result else q.arg1))
  else if q.op = "JZ" then
    let st := genOperand root st q.arg1
    st.emit .JPC 0 (.lab q.result)
  else if q.op = "CALL" then
    let procName := stripProcPrefix q.arg1
    let levelDiff : Int :=
      match findSymbol root procName st.currentProc with
      | some (_, ld) => (ld : Int)
      | none => 0
    let st := st.emit .CAL levelDiff (.lab q.arg1)
    let nargs : Int := if q.arg2 = "" then 0 else ((strToInt? q.arg2).getD 0)
    if nargs > 0 then st.emit .INT 0 (.num (-nargs)) else st
  else if q.op = "RET" || q.op = "END" then
    st.emit .OPR 0 (.num 0)
  else if q.op = "PARAM" then
    genOperand root st q.arg1
  else if q.op = "READ" then
    let st := st.emit .OPR 0 (.num 16)
    genStore root st q.result
  else if q.op = "WRITE" then
    let st := genOperand root st q.arg1
    st.emit .WRT 0 (.num 0)
  else if q.op = ":=" then
    let st := genOperand root st q.arg1
    genStore root st q.result
  else
    let oprCode : Option Int :=
      if q.op = "+" then some 2
      else if q.op = "-" then some 3
      else if q.op = "*" then some 4
      else if q.op = "/" then some 5
      else if q.op = "ODD" then some 6
      else if q.op = "=" then some 8
      else if q.op = "<>" then some 9
      else if q.op = "<" then some 10
      else if q.op = ">=" then some 11
      else if q.op = ">" then some 12
      else if q.op = "<=" then some 13
      else none
    match oprCode with
    | some code =>
      let st := genOperand root st q.arg1
      let st := if q.op = "ODD" then st else genOperand root st q.arg2
      let st := st.emit .OPR 0 (.num code)
      genStore root st q.result
    | none => st

/-- Pass 1 of `TargetCodeGenerator.generate`. -/
def tcgPass1 (root : SymTab) (tac : List Quad) : List Instruction × List (String × Nat) :=
  let pm := buildProcMap [] root
  let st := tac.foldl (tcgStep root pm)
    { instructions := [], labelMap := [], currentProc := "Global" }
  (st.instructions, st.labelMap)

/-- Pass 2: rewrite label operands through the label map; an unresolved
label falls back to 0. -/
def tcgResolve (lm : List (String × Nat)) (ins : List Instruction) : List Instruction :=
  ins.map (fun inst =>
    match inst.a with
    | .lab s =>
      match recordGet? lm s with
      | some n => { inst with a := .num (n : Int) }
      | none => { inst with a := .num 0 }
    | .num _ => inst)

/-- `TargetCodeGenerator.generate`: both passes; returns the resolved
instructions and the label map. -/
def tcgGenerate (root : SymTab) (tac : List Quad) :
    List Instruction × List (String × Nat) :=
  let (ins, lm) := tcgPass1 root tac
  (tcgResolve lm ins, lm)

/-! ## Virtual machine (`src/compiler/vm.ts`, class `VirtualMachine`)

The value stack is a total function `Int → Int` (the JS array, numeric
indices); the output collects the values printed by `WRT`; the input is
the sequence of values the external provider would supply to
`onRequestInput`. -/

structure VMState where
  stack : Int → Int
  p : Int
  b : Int
  t : Int
  input : List Int
  output : List Int

/-- Pointwise array update. -/
def upd (s : Int → Int) (i v : Int) : Int → Int :=
  fun j => if j = i then v else s j

/-- `VirtualMachine.base`: follow the static-link chain `l` times. -/
def vmBase (stack : Int → Int) (b : Int) (l : Int) : Int :=
  baseGo stack l.toNat b
where
  baseGo (stack : Int → Int) : Nat → Int → Int
    | 0, b1 => b1
    | n + 1, b1 => baseGo stack n (stack b1)

inductive VmErr where
  | divZero
  | noInput
  | badFetch
  | outOfFuel
  deriving DecidableEq, Repr

/-- The result of dispatching one instruction: the next state, or a
runtime error together with the state at the moment of the throw (the
fields the TS object holds when the exception propagates out of
`run`). -/
inductive StepRes where
  | ok (s : VMState)
  | err (e : VmErr) (s : VMState)

/-- `Number(i.a)` — after pass 2 every operand is numeric. -/
def addrNum : Addr → Int
  | .num n => n
  | .lab _ => 0

/-- The dispatch `switch` of `VirtualMachine.run`, applied to a state in
which the program counter has already been incremented past the fetched
instruction (the source does `this.p++` before dispatching). -/
def exec (s : VMState) (i : Instruction) : StepRes :=
  let a := addrNum i.a
  match i.f with
  | .LIT => .ok { s with stack := upd s.stack s.t a, t := s.t + 1 }
  | .OPR =>
    if a = 0 then
      -- RET: t = b; p = stack[t+2]; b = stack[t+1]
      let t' := s.b
      .ok { s with t := t', p := s.stack (t' + 2), b := s.stack (t' + 1) }
    else if a = 1 then
      .ok { s with stack := upd s.stack (s.t - 1) (-(s.stack (s.t - 1))) }
    else if a = 2 then
      let t' := s.t - 1
      .ok { s with t := t', stack := upd s.stack (t' - 1) (s.stack (t' - 1) + s.stack t') }
    else if a = 3 then
      let t' := s.t - 1
      .ok { s with t := t', stack := upd s.stack (t' - 1) (s.stack (t' - 1) - s.stack t') }
    else if a = 4 then
      let t' := s.t - 1
      .ok { s with t := t', stack := upd s.stack (t' - 1) (s.stack (t' - 1) * s.stack t') }
    else if a = 5 then
      -- DIV: this.t-- happens before the zero test
      let t' := s.t - 1
      if s.stack t' = 0 then .err .divZero { s with t := t' }
      else
        .ok { s with t := t', stack := upd s.stack (t' - 1) (Int.fdiv (s.stack (t' - 1)) (s.stack t')) }
    else if a = 6 then
      .ok { s with stack := upd s.stack (s.t - 1) (Int.tmod (s.stack (s.t - 1)) 2) }
    else if a = 8 then
      let t' := s.t - 1
      .ok { s with t := t', stack := upd s.stack (t' - 1) (if s.stack (t' - 1) = s.stack t' then 1 else 0) }
    else if a = 9 then
      let t' := s.t - 1
      .ok { s with t := t', stack := upd s.stack (t' - 1) (if s.stack (t' - 1) ≠ s.stack t' then 1 else 0) }
    else if a = 10 then
      let t' := s.t - 1
      .ok { s with t := t', stack := upd s.stack (t' - 1) (if s.stack (t' - 1) < s.stack t' then 1 else 0) }
    else if a = 11 then
      let t' := s.t - 1
      .ok { s with t := t', stack := upd s.stack (t' - 1) (if s.stack (t' - 1) ≥ s.stack t' then 1 else 0) }
    else if a = 12 then
      let t' := s.t - 1
      .ok { s with t := t', stack := upd s.stack (t' - 1) (if s.stack (t' - 1) > s.stack t' then 1 else 0) }
    else if a = 13 then
      let t' := s.t - 1
      .ok { s with t := t', stack := upd s.stack (t' - 1) (if s.stack (t' - 1) ≤ s.stack t' then 1 else 0) }
    else if a = 16 then
      match s.input with
      | v :: rest =>
        .ok { s with stack := upd s.stack s.t v, t := s.t + 1, input := rest }
      | [] => .err .noInput s
    else .ok s
  | .LOD =>
    .ok { s with stack := upd s.stack s.t (s.stack (vmBase s.stack s.b i.l + a)), t := s.t + 1 }
  | .STO =>
    let t' := s.t - 1
    .ok { s with t := t', stack := upd s.stack (vmBase s.stack s.b i.l + a) (s.stack t') }
  | .CAL =>
    .ok { s with
          stack := upd (upd (upd s.stack s.t (vmBase s.stack s.b i.l)) (s.t + 1) s.b) (s.t + 2) s.p,
          b := s.t, p := a }
  | .INT => .ok { s with t := s.t + a }
  | .JMP => .ok { s with p := a }
  | .JPC =>
    let t' := s.t - 1
    .ok { s with t := t', p := if s.stack t' = 0 then a else s.p }
  | .RED =>
    match s.input with
    | v :: rest =>
      .ok { s with stack := upd s.stack (vmBase s.stack s.b i.l + a) v, input := rest }
    | [] => .err .noInput s
  | .WRT =>
    let t' := s.t - 1
    .ok { s with t := t', output := s.output ++ [s.stack t'] }

/-- The fetch-execute loop of `VirtualMachine.run`: while `p` is below
the instruction count, fetch, increment `p`, dispatch, and stop when `p`
lands on 0 after an instruction (`if (this.p === 0) break`). -/
def vmRun (prog : List Instruction) : Nat → VMState → Except (VmErr × VMState) VMState
  | 0, s => .error (.outOfFuel, s)
  | fuel + 1, s =>
    if s.p < (prog.length : Int) then
      if 0 ≤ s.p then
        let i := prog.getD s.p.toNat { f := .OPR, l := 0, a := .num 0 }
        match exec { s with p := s.p + 1 } i with
        | .ok s' => if s'.p = 0 then .ok s' else vmRun prog fuel s'
        | .err e s' => .error (e, s')
      else .error (.badFetch, s)
    else .ok s

/-- The state set up at the top of `VirtualMachine.run`: zeroed stack,
`p = b = 0`, and `t = 3` (base frame). -/
def vmInit (input : List Int) : VMState :=
  { stack := fun _ => 0, p := 0, b := 0, t := 3, input := input, output := [] }

def vmRunProg (prog : List Instruction) (input : List Int) (fuel : Nat) :
    Except (VmErr × VMState) VMState :=
  vmRun prog fuel (vmInit input)

/-! ## The full pipeline as wired by `App.tsx` (`compile` + `run`)

`App.tsx` lexes, parses, builds the symbol table, generates TAC, runs
the optimizer for display, and hands the *unoptimized* TAC to the target
generator (`targetGen.generate(tacGen.code)`); the VM then executes the
resolved instructions.  The output collects the values printed by
`WRT`. -/

/-- The observable output of a run: the values printed by `WRT`, or
`none` when the run fails. -/
def vmOutputs (prog : List Instruction) (input : List Int) (fuel : Nat) :
    Option (List Int) :=
  match vmRunProg prog input fuel with
  | .ok st => some st.output
  | .error _ => none

/-- The compile half of the pipeline, producing the resolved instruction
list (or `none` on a lexical/syntax error). -/
def compileInstructions (src : String) (pfuel : Nat) : Option (List Instruction) :=
  match tokenize src with
  | .error _ => none
  | .ok toks =>
    match parse pfuel toks with
    | .error _ => none
    | .ok (ast, _) =>
      let tbl := stGenerate ast
      let tac := tacGenerate tbl ast
      some (tcgGenerate tbl tac).1

def compileAndRun (src : String) (input : List Int) (pfuel vfuel : Nat) :
    Option (List Int) :=
  match compileInstructions src pfuel with
  | some ins => vmOutputs ins input vfuel
  | none => none

/-! ## The classic example program (C1)

The classic PL/0 example in this compiler's concrete grammar: constants
`m = 7`, `n = 85`, a `multiply` procedure computing `z := m*n` by
double-and-halve multiplication through its two parameters (bound at
offsets −2/−1), a main body that loads `x`,`y`, calls `multiply(x, y)`
and writes `z`.  The intermediate artifacts of every stage are spelled
out so that each stage can be checked by kernel evaluation. -/

def classicSrc : String :=
"program ex;
const m := 7, n := 85;
var x, y, z;
procedure multiply(a, b);
begin
  z := 0;
  while b > 0 do
  begin
    if odd b then z := z + a;
    a := 2 * a;
    b := b / 2;
  end;
end;
begin
  x := m;
  y := n;
  call multiply(x, y);
  write(z);
end."

set_option maxHeartbeats 2000000 in
def classicToks : List Token := [⟨.PROGRAM, "program", 0, 1⟩,
  ⟨.IDENT, "ex", 0, 1⟩,
  ⟨.SEMICOLON, ";", 0, 1⟩,
  ⟨.CONST, "const", 0, 2⟩,
  ⟨.IDENT, "m", 0, 2⟩,
  ⟨.BECOMES, ":=", 0, 2⟩,
  ⟨.NUMBER, "7", 7, 2⟩,
  ⟨.COMMA, ",", 0, 2⟩,
  ⟨.IDENT, "n", 0, 2⟩,
  ⟨.BECOMES, ":=", 0, 2⟩,
  ⟨.NUMBER, "85", 85, 2⟩,
  ⟨.SEMICOLON, ";", 0, 2⟩,
  ⟨.VAR, "var", 0, 3⟩,
  ⟨.IDENT, "x", 0, 3⟩,
  ⟨.COMMA, ",", 0, 3⟩,
  ⟨.IDENT, "y", 0, 3⟩,
  ⟨.COMMA, ",", 0, 3⟩,
  ⟨.IDENT, "z", 0, 3⟩,
  ⟨.SEMICOLON, ";", 0, 3⟩,
  ⟨.PROCEDURE, "procedure", 0, 4⟩,
  ⟨.IDENT, "multiply", 0, 4⟩,
  ⟨.LPAREN, "(", 0, 4⟩,
  ⟨.IDENT, "a", 0, 4⟩,
  ⟨.COMMA, ",", 0, 4⟩,
  ⟨.IDENT, "b", 0, 4⟩,
  ⟨.RPAREN, ")", 0, 4⟩,
  ⟨.SEMICOLON, ";", 0, 4⟩,
  ⟨.BEGIN, "begin", 0, 5⟩,
  ⟨.IDENT, "z", 0, 6⟩,
  ⟨.BECOMES, ":=", 0, 6⟩,
  ⟨.NUMBER, "0", 0, 6⟩,
  ⟨.SEMICOLON, ";", 0, 6⟩,
  ⟨.WHILE, "while", 0, 7⟩,
  ⟨.IDENT, "b", 0, 7⟩,
  ⟨.GTR, ">", 0, 7⟩,
  ⟨.NUMBER, "0", 0, 7⟩,
  ⟨.DO, "do", 0, 7⟩,
  ⟨.BEGIN, "begin", 0, 8⟩,
  ⟨.IF, "if", 0, 9⟩,
  ⟨.ODD, "odd", 0, 9⟩,
  ⟨.IDENT, "b", 0, 9⟩,
  ⟨.THEN, "then", 0, 9⟩,
  ⟨.IDENT, "z", 0, 9⟩,
  ⟨.BECOMES, ":=", 0, 9⟩,
  ⟨.IDENT, "z", 0, 9⟩,
  ⟨.PLUS, "+", 0, 9⟩,
  ⟨.IDENT, "a", 0, 9⟩,
  ⟨.SEMICOLON, ";", 0, 9⟩,
  ⟨.IDENT, "a", 0, 10⟩,
  ⟨.BECOMES, ":=", 0, 10⟩,
  ⟨.NUMBER, "2", 2, 10⟩,
  ⟨.TIMES, "*", 0, 10⟩,
  ⟨.IDENT, "a", 0, 10⟩,
  ⟨.SEMICOLON, ";", 0, 10⟩,
  ⟨.IDENT, "b", 0, 11⟩,
  ⟨.BECOMES, ":=", 0, 11⟩,
  ⟨.IDENT, "b", 0, 11⟩,
  ⟨.SLASH, "/", 0, 11⟩,
  ⟨.NUMBER, "2", 2, 11⟩,
  ⟨.SEMICOLON, ";", 0, 11⟩,
  ⟨.END, "end", 0, 12⟩,
  ⟨.SEMICOLON, ";", 0, 12⟩,
  ⟨.END, "end", 0, 13⟩,
  ⟨.SEMICOLON, ";", 0, 13⟩,
  ⟨.BEGIN, "begin", 0, 14⟩,
  ⟨.IDENT, "x", 0, 15⟩,
  ⟨.BECOMES, ":=", 0, 15⟩,
  ⟨.IDENT, "m", 0, 15⟩,
  ⟨.SEMICOLON, ";", 0, 15⟩,
  ⟨.IDENT, "y", 0, 16⟩,
  ⟨.BECOMES, ":=", 0, 16⟩,
  ⟨.IDENT, "n", 0, 16⟩,
  ⟨.SEMICOLON, ";", 0, 16⟩,
  ⟨.CALL, "call", 0, 17⟩,
  ⟨.IDENT, "multiply", 0, 17⟩,
  ⟨.LPAREN, "(", 0, 17⟩,
  ⟨.IDENT, "x", 0, 17⟩,
  ⟨.COMMA, ",", 0, 17⟩,
  ⟨.IDENT, "y", 0, 17⟩,
  ⟨.RPAREN, ")", 0, 17⟩,
  ⟨.SEMICOLON, ";", 0, 17⟩,
  ⟨.WRITE, "write", 0, 18⟩,
  ⟨.LPAREN, "(", 0, 18⟩,
  ⟨.IDENT, "z", 0, 18⟩,
  ⟨.RPAREN, ")", 0, 18⟩,
  ⟨.SEMICOLON, ";", 0, 18⟩,
  ⟨.END, "end", 0, 19⟩,
  ⟨.PERIOD, ".", 0, 19⟩]

def classicAst : ProgramNode := ⟨"ex", (.mk (some [("m", 7), ("n", 85)]) (some ["x", "y", "z"]) [(.mk "multiply" ["a", "b"] (.mk none none [] [(.assign "z" (.num 0)), (.whileS (.binOp ">" (.var "b") (.num 0)) (.body [(.ifS (.odd (.var "b")) (.assign "z" (.binOp "+" (.var "z") (.var "a"))) none), (.assign "a" (.binOp "*" (.num 2) (.var "a"))), (.assign "b" (.binOp "/" (.var "b") (.num 2)))]))]))] [(.assign "x" (.var "m")), (.assign "y" (.var "n")), (.call "multiply" [(.var "x"), (.var "y")]), (.writeS [(.var "z")])])⟩

def classicTab : SymTab := (.mk "Global" 0 [⟨"m", .constant, 7, (.str ""), 1, 0⟩, ⟨"n", .constant, 85, (.str ""), 1, 0⟩, ⟨"x", .variable, 0, (.int 3), 1, 0⟩, ⟨"y", .variable, 0, (.int 4), 1, 0⟩, ⟨"z", .variable, 0, (.int 5), 1, 0⟩, ⟨"multiply", .procedure, 0, (.str ""), 3, 2⟩] [(.mk "multiply" 1 [⟨"a", .variable, 1, (.int (-2)), 1, 0⟩, ⟨"b", .variable, 1, (.int (-1)), 1, 0⟩] [] 3)] 6)

set_option maxHeartbeats 2000000 in
def classicTac : List Quad := [⟨0, "GOTO", "proc_main", "", ""⟩,
  ⟨1, "JMP", "", "", "L1"⟩,
  ⟨2, "LABEL", "", "", "proc_multiply"⟩,
  ⟨3, ":=", "0", "", "T1"⟩,
  ⟨4, ":=", "T1", "", "z"⟩,
  ⟨5, "LABEL", "", "", "L2"⟩,
  ⟨6, ":=", "b", "", "T2"⟩,
  ⟨7, ":=", "0", "", "T3"⟩,
  ⟨8, ">", "T2", "T3", "T4"⟩,
  ⟨9, "JZ", "T4", "", "L3"⟩,
  ⟨10, ":=", "b", "", "T5"⟩,
  ⟨11, "ODD", "T5", "", "T6"⟩,
  ⟨12, "JZ", "T6", "", "L4"⟩,
  ⟨13, ":=", "z", "", "T7"⟩,
  ⟨14, ":=", "a", "", "T8"⟩,
  ⟨15, "+", "T7", "T8", "T9"⟩,
  ⟨16, ":=", "T9", "", "z"⟩,
  ⟨17, "JMP", "", "", "L5"⟩,
  ⟨18, "LABEL", "", "", "L4"⟩,
  ⟨19, "LABEL", "", "", "L5"⟩,
  ⟨20, ":=", "2", "", "T10"⟩,
  ⟨21, ":=", "a", "", "T11"⟩,
  ⟨22, "*", "T10", "T11", "T12"⟩,
  ⟨23, ":=", "T12", "", "a"⟩,
  ⟨24, ":=", "b", "", "T13"⟩,
  ⟨25, ":=", "2", "", "T14"⟩,
  ⟨26, "/", "T13", "T14", "T15"⟩,
  ⟨27, ":=", "T15", "", "b"⟩,
  ⟨28, "JMP", "", "", "L2"⟩,
  ⟨29, "LABEL", "", "", "L3"⟩,
  ⟨30, "RET", "multiply", "", ""⟩,
  ⟨31, "LABEL", "", "", "L1"⟩,
  ⟨32, "LABEL", "", "", "proc_main"⟩,
  ⟨33, ":=", "7", "", "T16"⟩,
  ⟨34, ":=", "T16", "", "x"⟩,
  ⟨35, ":=", "85", "", "T17"⟩,
  ⟨36, ":=", "T17", "", "y"⟩,
  ⟨37, ":=", "x", "", "T18"⟩,
  ⟨38, "PARAM", "T18", "", ""⟩,
  ⟨39, ":=", "y", "", "T19"⟩,
  ⟨40, "PARAM", "T19", "", ""⟩,
  ⟨41, "CALL", "proc_multiply", "2", "T20"⟩,
  ⟨42, ":=", "z", "", "T21"⟩,
  ⟨43, "WRITE", "T21", "", ""⟩,
  ⟨44, "END", "", "", ""⟩]

set_option maxHeartbeats 2000000 in
def classicIns : List Instruction := [⟨.JMP, 0, (.num 57)⟩,
  ⟨.JMP, 0, (.num 57)⟩,
  ⟨.INT, 0, (.num 103)⟩,
  ⟨.LIT, 0, (.num 0)⟩,
  ⟨.STO, 0, (.num 21)⟩,
  ⟨.LOD, 0, (.num 21)⟩,
  ⟨.STO, 1, (.num 5)⟩,
  ⟨.LOD, 0, (.num (-1))⟩,
  ⟨.STO, 0, (.num 22)⟩,
  ⟨.LIT, 0, (.num 0)⟩,
  ⟨.STO, 0, (.num 23)⟩,
  ⟨.LOD, 0, (.num 22)⟩,
  ⟨.LOD, 0, (.num 23)⟩,
  ⟨.OPR, 0, (.num 12)⟩,
  ⟨.STO, 0, (.num 24)⟩,
  ⟨.LOD, 0, (.num 24)⟩,
  ⟨.JPC, 0, (.num 56)⟩,
  ⟨.LOD, 0, (.num (-1))⟩,
  ⟨.STO, 0, (.num 25)⟩,
  ⟨.LOD, 0, (.num 25)⟩,
  ⟨.OPR, 0, (.num 6)⟩,
  ⟨.STO, 0, (.num 26)⟩,
  ⟨.LOD, 0, (.num 26)⟩,
  ⟨.JPC, 0, (.num 35)⟩,
  ⟨.LOD, 1, (.num 5)⟩,
  ⟨.STO, 0, (.num 27)⟩,
  ⟨.LOD, 0, (.num (-2))⟩,
  ⟨.STO, 0, (.num 28)⟩,
  ⟨.LOD, 0, (.num 27)⟩,
  ⟨.LOD, 0, (.num 28)⟩,
  ⟨.OPR, 0, (.num 2)⟩,
  ⟨.STO, 0, (.num 29)⟩,
  ⟨.LOD, 0, (.num 29)⟩,
  ⟨.STO, 1, (.num 5)⟩,
  ⟨.JMP, 0, (.num 35)⟩,
  ⟨.LIT, 0, (.num 2)⟩,
  ⟨.STO, 0, (.num 30)⟩,
  ⟨.LOD, 0, (.num (-2))⟩,
  ⟨.STO, 0, (.num 31)⟩,
  ⟨.LOD, 0, (.num 30)⟩,
  ⟨.LOD, 0, (.num 31)⟩,
  ⟨.OPR, 0, (.num 4)⟩,
  ⟨.STO, 0, (.num 32)⟩,
  ⟨.LOD, 0, (.num 32)⟩,
  ⟨.STO, 0, (.num (-2))⟩,
  ⟨.LOD, 0, (.num (-1))⟩,
  ⟨.STO, 0, (.num 33)⟩,
  ⟨.LIT, 0, (.num 2)⟩,
  ⟨.STO, 0, (.num 34)⟩,
  ⟨.LOD, 0, (.num 33)⟩,
  ⟨.LOD, 0, (.num 34)⟩,
  ⟨.OPR, 0, (.num 5)⟩,
  ⟨.STO, 0, (.num 35)⟩,
  ⟨.LOD, 0, (.num 35)⟩,
  ⟨.STO, 0, (.num (-1))⟩,
  ⟨.JMP, 0, (.num 7)⟩,
  ⟨.OPR, 0, (.num 0)⟩,
  ⟨.INT, 0, (.num 106)⟩,
  ⟨.LIT, 0, (.num 7)⟩,
  ⟨.STO, 0, (.num 36)⟩,
  ⟨.LOD, 0, (.num 36)⟩,
  ⟨.STO, 0, (.num 3)⟩,
  ⟨.LIT, 0, (.num 85)⟩,
  ⟨.STO, 0, (.num 37)⟩,
  ⟨.LOD, 0, (.num 37)⟩,
  ⟨.STO, 0, (.num 4)⟩,
  ⟨.LOD, 0, (.num 3)⟩,
  ⟨.STO, 0, (.num 38)⟩,
  ⟨.LOD, 0, (.num 38)⟩,
  ⟨.LOD, 0, (.num 4)⟩,
  ⟨.STO, 0, (.num 39)⟩,
  ⟨.LOD, 0, (.num 39)⟩,
  ⟨.CAL, 0, (.num 2)⟩,
  ⟨.INT, 0, (.num (-2))⟩,
  ⟨.LOD, 0, (.num 5)⟩,
  ⟨.STO, 0, (.num 41)⟩,
  ⟨.LOD, 0, (.num 41)⟩,
  ⟨.WRT, 0, (.num 0)⟩,
  ⟨.OPR, 0, (.num 0)⟩]

def classicLabelMap : List (String × Nat) := [("proc_multiply", 2), ("L2", 7), ("L4", 35), ("L5", 35), ("L3", 56), ("L1", 57), ("proc_main", 57)]

/-! # Theorems -/

/-! ## Stage lemmas for the classic example program (C1) -/

/-! ## Concrete states and inputs used by the theorems below -/

/-- A concrete state about to execute `OPR 5` with divisor 0: `t = 2`,
the whole stack zero. -/
def c3state : VMState :=
  { stack := fun _ => 0, p := 7, b := 0, t := 2, input := [], output := [] }

/-- An empty global scope, for concrete code-generation instances. -/
def tbEmpty : SymTab := .mk "Global" 0 [] [] 3

/-- The error component of a lexer outcome. -/
def errOf : Except LexErr (List Token) → Option LexErr
  | .ok _ => none
  | .error e => some e

/-- Claim-side walk of the input: the first failure the specification
describes — an unrecognized byte (carried with its line, lines counted
from 1 advancing at each newline) or a `:` not immediately followed by
`=`. -/
def lexErrSpecGo : Nat → List Char → Option LexErr
  | _, [] => none
  | line, c :: cs =>
    if c = '\n' then lexErrSpecGo (line + 1) cs
    else if lexRecognizedChar c = false then some (.badChar c line)
    else if c = ':' then
      if cs.head? = some '=' then lexErrSpecGo line cs
      else some (.badColon line)
    else lexErrSpecGo line cs

set_option maxRecDepth 1000000 in
theorem classic_lex : tokenize classicSrc = .ok classicToks := by rfl

set_option maxRecDepth 1000000 in
theorem classic_parse : parse 1000 classicToks = .ok (classicAst, []) := by rfl

set_option maxRecDepth 1000000 in
theorem classic_symtab : stGenerate classicAst = classicTab := by rfl

set_option maxRecDepth 1000000 in
set_option maxHeartbeats 8000000 in
theorem classic_tac : tacGenerate classicTab classicAst = classicTac := by rfl

set_option maxRecDepth 1000000 in
set_option maxHeartbeats 8000000 in
theorem classic_tcg : tcgGenerate classicTab classicTac = (classicIns, classicLabelMap) := by
  rfl

set_option maxRecDepth 1000000 in
set_option maxHeartbeats 8000000 in
theorem classic_vm : vmOutputs classicIns [] 3000 = some [595] := by rfl

set_option maxRecDepth 1000000 in
theorem classic_instructions : compileInstructions classicSrc 1000 = some classicIns := by
  simp only [compileInstructions, classic_lex, classic_parse, classic_symtab, classic_tac,
    classic_tcg]

/-- C1.  Running the full pipeline (lexer, parser, symbol table builder,
IR generator, target code generator, VM — the optimizer runs for display
only and, as in `App.tsx`, the target generator consumes the unoptimized
quadruples) on the classic example program — constants `m = 7` and
`n = 85`, a `multiply` procedure computing `z := m*n` by double-and-halve
multiplication through its two parameters (offsets −2/−1), a main body
that calls `multiply(x, y)` and then writes `z` — produces the single
output value 595. -/
theorem C1_classic_pipeline_prints_595 :
    compileAndRun classicSrc [] 1000 3000 = some [595] := by
  simp only [compileAndRun, classic_instructions, classic_vm]

/-! ## VM frame discipline (C2) -/

/-- C2.  For every VM state, executing `CAL l a` (which pushes static
link, dynamic link and return address at `t`, `t+1`, `t+2` and sets
`b := t`, `p := a`) immediately followed by the callee's return
(`OPR 0`) restores `b` and `p` to exactly their values at the call
dispatch, and restores `t` to its value at the call (the arguments are
still on the stack); the call's argument-cleanup `INT -n` then leaves
`t` at its value from before the `n` arguments were pushed. -/
theorem C2_call_ret_frame_discipline (s : VMState) (l a : Int) (n : Nat) :
    ∃ s1 s2 s3,
      exec s ⟨.CAL, l, .num a⟩ = .ok s1
      ∧ exec s1 ⟨.OPR, 0, .num 0⟩ = .ok s2
      ∧ s2.b = s.b ∧ s2.p = s.p ∧ s2.t = s.t
      ∧ exec s2 ⟨.INT, 0, .num (-(n : Int))⟩ = .ok s3
      ∧ (s.t = s3.t + n ∧ s3.t = s.t - n) := by
  have h12 : s.t + 1 ≠ s.t + 2 := by omega
  have h02 : s.t ≠ s.t + 2 := by omega
  have h01 : s.t ≠ s.t + 1 := by omega
  refine ⟨_, _, _, rfl, rfl, ?_, ?_, ?_, rfl, ?_, ?_⟩ <;>
    simp [exec, upd, addrNum, h12.symm, h02.symm, h01.symm] <;> omega

/-! ## Division by zero (C3) -/

/-- C3, counterexample.  On `OPR 5` with divisor 0 the VM does raise the
runtime error, but the state at the throw has `t` already decremented
(the source performs `this.t--` before the zero test): from `t = 2` the
error state has `t = 1 ≠ 2`, so the claim that `t` is left as it was
when the instruction was fetched is false. -/
theorem C3_div_zero_cex :
    exec c3state ⟨.OPR, 0, .num 5⟩ = .err .divZero { c3state with t := 1 }
    ∧ ({ c3state with t := 1 } : VMState).t ≠ c3state.t := by
  constructor
  · rfl
  · decide

/-- C3, amended.  Executing `OPR 5` with divisor 0 (the value below the
top pointer) raises the division-by-zero runtime error; the stack array,
`b`, `p`, input and output are left exactly as they were when the
instruction was fetched, and `t` is decremented by exactly one (the
divisor cell was already popped before the check). -/
theorem C3_div_zero_amended (s : VMState) (h : s.stack (s.t - 1) = 0) :
    exec s ⟨.OPR, 0, .num 5⟩ = .err .divZero { s with t := s.t - 1 } := by
  simp [exec, addrNum, h]

theorem C3_div_zero_amended_witness :
    c3state.stack (c3state.t - 1) = 0
    ∧ exec c3state ⟨.OPR, 0, .num 5⟩ = .err .divZero { c3state with t := c3state.t - 1 } :=
  ⟨rfl, C3_div_zero_amended c3state rfl⟩

/-! ## Label resolution (C4) -/

/-- C4, counterexample.  Generating code for a jump to the label `L9`,
which no `LABEL` quadruple defines, completes without any error and
silently rewrites the operand to 0 in pass 2 (the `inst.a = 0` fallback):
the label map is empty, yet the generated instruction is `JMP 0 0`. -/
theorem C4_unresolved_label_cex :
    tcgGenerate tbEmpty [⟨0, "JMP", "", "", "L9"⟩] = ([⟨.JMP, 0, .num 0⟩], [])
    ∧ recordGet? ([] : List (String × Nat)) "L9" = none := by
  constructor
  · rfl
  · rfl

/-- C4, amended.  After pass 2, the instruction at every position of the
pass-1 output whose operand is a symbolic label present in the label map
holds the absolute instruction index recorded there; a label operand
*not* present in the label map is silently rewritten to 0 (code
generation completes without an error); and every operand after pass 2
is numeric. -/
theorem C4_label_resolution_amended (root : SymTab) (tac : List Quad) (i : Nat)
    (inst : Instruction) (h : (tcgPass1 root tac).1.get? i = some inst) :
    (∀ s : String, ∀ n : Nat, inst.a = .lab s →
        recordGet? (tcgPass1 root tac).2 s = some n →
        (tcgGenerate root tac).1.get? i = some { inst with a := .num (n : Int) })
    ∧ (∀ s : String, inst.a = .lab s →
        recordGet? (tcgPass1 root tac).2 s = none →
        (tcgGenerate root tac).1.get? i = some { inst with a := .num 0 })
    ∧ (∀ inst' : Instruction, (tcgGenerate root tac).1.get? i = some inst' →
        ∃ m : Int, inst'.a = .num m) := by
  have hgen : (tcgGenerate root tac).1 = tcgResolve (tcgPass1 root tac).2 (tcgPass1 root tac).1 := by
    simp only [tcgGenerate]
  have hget : (tcgGenerate root tac).1.get? i =
      ((tcgPass1 root tac).1.get? i).map (fun inst =>
        match inst.a with
        | .lab s =>
          match recordGet? (tcgPass1 root tac).2 s with
          | some n => { inst with a := .num (n : Int) }
          | none => { inst with a := .num 0 }
        | .num _ => inst) := by
    rw [hgen, tcgResolve, List.get?_map]
  rcases inst with ⟨f0, l0, a0⟩
  refine ⟨?_, ?_, ?_⟩
  · intro s n ha hm
    obtain rfl : a0 = .lab s := ha
    rw [hget, h]
    simp [hm]
  · intro s ha hm
    obtain rfl : a0 = .lab s := ha
    rw [hget, h]
    simp [hm]
  · intro inst' h'
    rw [hget, h] at h'
    rcases a0 with m | s
    · simp at h'
      exact ⟨m, by rw [← h']⟩
    · rcases hm : recordGet? (tcgPass1 root tac).2 s with _ | n <;>
        simp [hm] at h' <;> exact ⟨_, by rw [← h']⟩

theorem C4_label_resolution_amended_witness :
    (tcgGenerate tbEmpty [⟨0, "LABEL", "", "", "L7"⟩, ⟨1, "JMP", "", "", "L7"⟩]).1.get? 0
      = some ⟨.JMP, 0, .num 0⟩ :=
  (C4_label_resolution_amended tbEmpty [⟨0, "LABEL", "", "", "L7"⟩, ⟨1, "JMP", "", "", "L7"⟩]
    0 ⟨.JMP, 0, .lab "L7"⟩ rfl).1 "L7" 0 rfl rfl

/-! ## Symbol-table offsets (C5) -/

/-- C5.  For a global declaration `var a, b, c;` the three variables
receive offsets 3, 4, 5 in declaration order, registered at level 0; a
procedure declared with two parameters registers them, in its child
scope at level 1, at offsets −2 and −1 (first parameter −2, second −1).
Stated for arbitrary names and procedure/main bodies; the procedure's
entry in the global scope carries the back-filled frame size 3 (header
only — the procedure declares no locals) and parameter count 2. -/
theorem C5_symbol_table_offsets (va vb vc pn p1 p2 : String)
    (ibody mbody : List StmtNode) :
    let blk : BlockNode :=
      .mk none (some [va, vb, vc]) [.mk pn [p1, p2] (.mk none none [] ibody)] mbody
    let tab := stGenerate ⟨"prog", blk⟩
    tab.level = 0
    ∧ tab.entries =
        [⟨va, .variable, 0, .int 3, 1, 0⟩, ⟨vb, .variable, 0, .int 4, 1, 0⟩,
         ⟨vc, .variable, 0, .int 5, 1, 0⟩, ⟨pn, .procedure, 0, .str "", 3, 2⟩]
    ∧ tab.children = [.mk pn 1
        [⟨p1, .variable, 1, .int (-2), 1, 0⟩, ⟨p2, .variable, 1, .int (-1), 1, 0⟩] [] 3] := by
  refine ⟨rfl, rfl, rfl⟩

/-! ## Constant folding (C6) -/

/-- Pass 1.1 on a single quadruple is one `olbStep` from the empty
constant map. -/
theorem olb_single (q : Quad) : optimizeLocalBasic [q] = [(olbStep [] q).2] := rfl

/-- A string that parses as an integer is nonempty. -/
theorem strToInt?_ne_empty {s : String} {v : Int} (h : strToInt? s = some v) : s ≠ "" := by
  intro he
  rw [he] at h
  exact Option.noConfusion ((rfl : strToInt? "" = none) ▸ h)

/-- Lookup in the empty constant map. -/
theorem recordGet?_nil {a : Type} (k : String) : recordGet? ([] : List (String × a)) k = none := rfl

/-- C6.  The optimizer's constant-folding step (pass 1.1,
`Optimizer.optimizeLocalBasic`) evaluates at compile time any
arithmetic/relational quadruple from the fold list whose operands are
numeric constants (written canonically, as the compiler produces them;
an absent second operand is read as 0): whenever the fold evaluator
yields `r` the quadruple becomes the assignment `result := r`, division
is floor division (`Int.fdiv`, truncating toward negative infinity),
and when the operator is `/` and the divisor constant is 0 the fold
evaluator refuses (`none`) and the quadruple is left unfolded in the
output. -/
theorem C6_constant_folding (qid : Nat) (op a1 a2 res : String) (v1 v2 : Int)
    (hop : op ∈ foldOps)
    (h1p : strToInt? a1 = some v1) (h1c : a1 = toString v1)
    (h2 : (a2 = "" ∧ v2 = 0) ∨ (strToInt? a2 = some v2 ∧ a2 = toString v2)) :
    (∀ r, foldEval op v1 v2 = some r →
        optimizeLocalBasic [⟨qid, op, a1, a2, res⟩] = [⟨qid, ":=", toString r, "", res⟩])
    ∧ (foldEval op v1 v2 = none →
        op = "/" ∧ v2 = 0 ∧
        optimizeLocalBasic [⟨qid, op, a1, a2, res⟩] = [⟨qid, op, a1, a2, res⟩])
    ∧ (v2 ≠ 0 → foldEval "/" v1 v2 = some (Int.fdiv v1 v2))
    ∧ foldEval "/" v1 0 = none := by
  have hne1 := strToInt?_ne_empty h1p
  simp only [foldOps, List.mem_cons, List.not_mem_nil, or_false] at hop
  rcases hop with rfl | rfl | rfl | rfl | rfl | rfl | rfl | rfl | rfl | rfl | rfl <;>
    rcases h2 with ⟨rfl, rfl⟩ | ⟨h2p, h2c⟩ <;>
    refine ⟨fun r hr => ?_, fun hnone => ?_,
      fun hv => by first | exact absurd rfl hv | simp [foldEval, hv],
      by simp [foldEval]⟩ <;>
    rw [olb_single] at * <;>
  first
  | (simp [foldEval] at hnone; done)
  | (simp [foldEval] at hr; done)
  | (simp [foldEval] at hr
     subst hr
     simp [olbStep, recordGet?_nil, applyAlgebraicSimplification, foldOps, h1p, hne1,
       foldEval, strStartsWith]
     done)
  | (have hne2 := strToInt?_ne_empty h2p
     simp [foldEval] at hr
     subst hr
     simp [olbStep, recordGet?_nil, applyAlgebraicSimplification, foldOps, h1p, h2p, hne1,
       hne2, foldEval, strStartsWith]
     done)
  | skip
  -- "+", numeric arg2: algebraic simplification may fire on a2 = "0"
  · have hne2 := strToInt?_ne_empty h2p
    simp [foldEval] at hr
    subst hr
    by_cases ha : a2 = "0"
    · subst ha
      obtain rfl : (0 : Int) = v2 :=
        Option.some.inj ((show strToInt? "0" = some (0 : Int) from rfl).symm.trans h2p)
      simp [olbStep, recordGet?_nil, applyAlgebraicSimplification, foldOps, h1p, hne1,
        foldEval, strStartsWith, h1c]
    · simp [olbStep, recordGet?_nil, applyAlgebraicSimplification, foldOps, h1p, h2p, hne1,
        hne2, foldEval, strStartsWith, ha]
  -- "*", numeric arg2: algebraic simplification may fire on a2 ∈ {"1","0","2"}
  · have hne2 := strToInt?_ne_empty h2p
    simp [foldEval] at hr
    subst hr
    by_cases hA : a2 = "1"
    · subst hA
      obtain rfl : (1 : Int) = v2 :=
        Option.some.inj ((show strToInt? "1" = some (1 : Int) from rfl).symm.trans h2p)
      simp [olbStep, recordGet?_nil, applyAlgebraicSimplification, foldOps, h1p, hne1,
        foldEval, strStartsWith, h1c]
    · by_cases hB : a2 = "0"
      · subst hB
        obtain rfl : (0 : Int) = v2 :=
          Option.some.inj ((show strToInt? "0" = some (0 : Int) from rfl).symm.trans h2p)
        simp [olbStep, recordGet?_nil, applyAlgebraicSimplification, foldOps, h1p, hne1,
          foldEval, strStartsWith, hA, show toString (0 : Int) = "0" from rfl]
      · by_cases hC : a2 = "2"
        · subst hC
          obtain rfl : (2 : Int) = v2 :=
            Option.some.inj ((show strToInt? "2" = some (2 : Int) from rfl).symm.trans h2p)
          simp [olbStep, recordGet?_nil, applyAlgebraicSimplification, foldOps, h1p, hne1,
            foldEval, strStartsWith, hA, hB, mul_two]
        · simp [olbStep, recordGet?_nil, applyAlgebraicSimplification, foldOps, h1p, h2p,
            hne1, hne2, foldEval, strStartsWith, hA, hB, hC]
  -- "/", empty arg2 (divisor 0): quadruple is left unfolded
  · refine ⟨rfl, rfl, ?_⟩
    simp [olbStep, recordGet?_nil, applyAlgebraicSimplification, foldOps, h1p, hne1,
      foldEval, strStartsWith]
  -- "/", numeric arg2, fold succeeds
  · have hne2 := strToInt?_ne_empty h2p
    by_cases hv2 : v2 = 0
    · subst hv2; simp [foldEval] at hr
    · have hfe : foldEval "/" v1 v2 = some (Int.fdiv v1 v2) := by simp [foldEval, hv2]
      rw [hfe] at hr
      obtain rfl : Int.fdiv v1 v2 = r := Option.some.inj hr
      simp [olbStep, recordGet?_nil, applyAlgebraicSimplification, foldOps, h1p, h2p, hne1,
        hne2, foldEval, strStartsWith, hv2]
  -- "/", numeric arg2 parsing to 0: quadruple is left unfolded
  · have hne2 := strToInt?_ne_empty h2p
    simp [foldEval] at hnone
    subst hnone
    refine ⟨rfl, rfl, ?_⟩
    simp [olbStep, recordGet?_nil, applyAlgebraicSimplification, foldOps, h1p, h2p, hne1,
      hne2, foldEval, strStartsWith]


/-- Witness for C6 on the quadruple `T1 := -7 / 2`: folded to the
assignment `T1 := -4` (floor division), by the theorem itself. -/
theorem C6_constant_folding_witness :
    optimizeLocalBasic [⟨0, "/", "-7", "2", "T1"⟩] = [⟨0, ":=", "-4", "", "T1"⟩] :=
  (C6_constant_folding 0 "/" "-7" "2" "T1" (-7) 2 (by decide) (by rfl) (by rfl)
    (Or.inr ⟨by rfl, by rfl⟩)).1 (-4) (by rfl)

/-! ## Dead-code elimination (C7) -/

/-- The retained quadruples form a sublist of the input. -/
theorem dceGo_sublist (qs : List Quad) : (dceGo qs).2.Sublist qs := by
  induction qs with
  | nil => simp [dceGo]
  | cons q rest ih =>
    simp only [dceGo]
    split
    · exact ih.trans (List.sublist_cons_self q rest)
    · exact ih.cons₂ q

/-- The live set threaded by the scan is exactly the use/def liveness
of the RETAINED suffix (not of the input suffix): dropped quadruples
contribute no uses. -/
theorem dceGo_live (qs : List Quad) : (dceGo qs).1 = dceLiveOf (dceGo qs).2 := by
  induction qs with
  | nil => rfl
  | cons q rest ih =>
    simp only [dceGo]
    split
    · exact ih
    · simp only [dceLiveOf, ih]

/-- A quadruple whose result is not `T`-prefixed is never dropped. -/
theorem dce_keeps_named (qs : List Quad) (q : Quad) (hq : q ∈ qs)
    (h : strStartsWith q.result "T" = false) : q ∈ eliminateDeadCode qs := by
  unfold eliminateDeadCode
  revert hq
  induction qs with
  | nil => intro hq; cases hq
  | cons p rest ih =>
    intro hq
    simp only [dceGo]
    rcases List.mem_cons.mp hq with rfl | hq
    · have hd : dceIsDead q (dceGo rest).1 = false := by
        simp [dceIsDead, h]
      simp [hd]
    · split
      · exact ih hq
      · exact List.mem_cons_of_mem _ (ih hq)

/-- One step of the pass, phrased against the retained suffix. -/
theorem dce_step (q : Quad) (rest : List Quad) :
    eliminateDeadCode (q :: rest) =
      if dceIsDead q (dceLiveOf (eliminateDeadCode rest)) then eliminateDeadCode rest
      else q :: eliminateDeadCode rest := by
  unfold eliminateDeadCode
  simp only [dceGo]
  rw [dceGo_live]
  split
  · rfl
  · rfl

/-- C7 counterexample.  On `T1 := x; T2 := T1` the pass drops BOTH
quadruples: `T2` is dead, the quadruple reading `T1` is discarded
without contributing a use, and the drop cascades to `T1 := x`.  The
claim as written (dead = "never read before being reassigned or before
the scan ends", read over the input sequence) keeps `T1 := x`, since
the input does read `T1`. -/
theorem C7_dce_cascade_cex :
    eliminateDeadCode [⟨0, ":=", "x", "", "T1"⟩, ⟨1, ":=", "T1", "", "T2"⟩] = []
    ∧ dceClaimSpec [⟨0, ":=", "x", "", "T1"⟩, ⟨1, ":=", "T1", "", "T2"⟩]
        = [⟨0, ":=", "x", "", "T1"⟩] := ⟨rfl, rfl⟩

/-- C7 (amended).  `Optimizer.eliminateDeadCode` is a single backward
scan that returns a sublist of its input; a quadruple whose result is
not a `T`-prefixed temporary is always kept; the liveness it consults
is the use/def liveness of the RETAINED suffix — uses inside dropped
quadruples do not count, so drops cascade backward through chains of
temporaries; and each step drops the head quadruple exactly when its
result is a dead `T`-temporary with respect to that retained-suffix
liveness. -/
theorem C7_dce_amended (qs : List Quad) :
    (eliminateDeadCode qs).Sublist qs
    ∧ (∀ q ∈ qs, strStartsWith q.result "T" = false → q ∈ eliminateDeadCode qs)
    ∧ (dceGo qs).1 = dceLiveOf (eliminateDeadCode qs)
    ∧ (∀ q rest, eliminateDeadCode (q :: rest) =
        if dceIsDead q (dceLiveOf (eliminateDeadCode rest)) then eliminateDeadCode rest
        else q :: eliminateDeadCode rest) :=
  ⟨dceGo_sublist qs, fun q hq h => dce_keeps_named qs q hq h, dceGo_live qs,
    fun q rest => dce_step q rest⟩

/-- Witness for C7 (amended) on the singleton `x := T1`: kept, by the
named-result conjunct of the theorem itself. -/
theorem C7_dce_amended_witness :
    (⟨0, ":=", "T1", "", "x"⟩ : Quad) ∈ eliminateDeadCode [⟨0, ":=", "T1", "", "x"⟩] :=
  (C7_dce_amended [⟨0, ":=", "T1", "", "x"⟩]).2.1 _ (List.mem_singleton.mpr rfl) rfl

/-! ## Lexical error reporting (C9) -/

theorem errOf_map (f : List Token → List Token) (x : Except LexErr (List Token)) :
    errOf (x.map f) = errOf x := by
  cases x <;> rfl

theorem lexErrSpec_skip (w rest : List Char) (line : Nat)
    (hw : ∀ c ∈ w, lexRecognizedChar c = true ∧ c ≠ '\n' ∧ c ≠ ':') :
    lexErrSpecGo line (w ++ rest) = lexErrSpecGo line rest := by
  induction w with
  | nil => rfl
  | cons c w ih =>
    obtain ⟨h1, h2, h3⟩ := hw c (List.mem_cons_self c w)
    rw [List.cons_append, lexErrSpecGo, if_neg h2, if_neg (by simp [h1]), if_neg h3]
    exact ih (fun d hd => hw d (List.mem_cons_of_mem _ hd))

theorem lexErrSpec_none (l : List Char) : ∀ line : Nat,
    (lexErrSpecGo line l).isNone = (l.all lexRecognizedChar && lexColonsOk l) := by
  induction l with
  | nil => intro line; rfl
  | cons c cs ih =>
    intro line
    by_cases hn : c = '\n'
    · subst hn
      rw [lexErrSpecGo, if_pos rfl, ih (line + 1)]
      simp [lexColonsOk, lexRecognizedChar, jsSpace]
    · by_cases hrec : lexRecognizedChar c = true
      · by_cases hc : c = ':'
        · subst hc
          rw [lexErrSpecGo, if_neg hn, if_neg (by simp [hrec]), if_pos rfl]
          by_cases hd : cs.head? = some '='
          · rw [if_pos hd, ih line]
            cases cs with
            | nil => simp at hd
            | cons d cs' =>
              simp only [List.head?_cons, Option.some.injEq] at hd
              subst hd
              simp [lexColonsOk, hrec, List.all_cons]
          · rw [if_neg hd]
            cases cs with
            | nil => simp [lexColonsOk, hrec, List.all_cons]
            | cons d cs' =>
              have hd' : d ≠ '=' := by
                intro h; exact hd (by simp [h])
              simp [lexColonsOk, hrec, List.all_cons, hd']
        · rw [lexErrSpecGo, if_neg hn, if_neg (by simp [hrec]), if_neg hc, ih line]
          simp [lexColonsOk, hrec, hc, List.all_cons]
      · have hrec' : lexRecognizedChar c = false := by
          cases h : lexRecognizedChar c
          · rfl
          · exact absurd h hrec
        rw [lexErrSpecGo, if_neg hn, if_pos hrec']
        simp [List.all_cons, hrec']

theorem lexGo_err : ∀ (fuel : Nat) (l : List Char) (line : Nat), l.length < fuel →
    lexErrSpecGo line l = errOf (lexGo fuel line l) := by
  intro fuel
  induction fuel with
  | zero => intro l line h; exact absurd h (Nat.not_lt_zero _)
  | succ fuel ih =>
    intro l line hf
    cases l with
    | nil => rfl
    | cons c cs =>
      have hcs : cs.length < fuel := by
        simp only [List.length_cons] at hf
        omega
      rw [lexGo]
      by_cases hsp : jsSpace c = true
      · rw [if_pos hsp]
        by_cases hn : c = '\n'
        · subst hn
          rw [lexErrSpecGo, if_pos rfl, if_pos rfl]
          exact ih cs (line + 1) hcs
        · have hrec : lexRecognizedChar c = true := by simp [lexRecognizedChar, hsp]
          have hcolon : c ≠ ':' := by intro h; subst h; exact absurd hsp (by decide)
          rw [lexErrSpecGo, if_neg hn, if_neg (by simp [hrec]), if_neg hcolon, if_neg hn]
          exact ih cs line hcs
      · rw [if_neg hsp]
        have hn : c ≠ '\n' := by intro h; subst h; exact hsp (by decide)
        by_cases hal : c.isAlpha = true
        · rw [if_pos hal]
          simp only [errOf_map]
          have hrec : lexRecognizedChar c = true := by simp [lexRecognizedChar, hal]
          have hcolon : c ≠ ':' := by intro h; subst h; exact absurd hal (by decide)
          rw [lexErrSpecGo, if_neg hn, if_neg (by simp [hrec]), if_neg hcolon]
          have hw : ∀ d ∈ cs.takeWhile Char.isAlphanum,
              lexRecognizedChar d = true ∧ d ≠ '\n' ∧ d ≠ ':' := by
            intro d hd
            have hdp : d.isAlphanum = true := List.mem_takeWhile_imp hd
            have hdor : d.isAlpha = true ∨ d.isDigit = true := by
              simpa [Char.isAlphanum] using hdp
            refine ⟨?_, ?_, ?_⟩
            · rcases hdor with h | h <;> simp [lexRecognizedChar, h]
            · intro h; subst h; exact absurd hdp (by decide)
            · intro h; subst h; exact absurd hdp (by decide)
          conv_lhs => rw [← List.takeWhile_append_dropWhile Char.isAlphanum cs]
          rw [lexErrSpec_skip _ _ _ hw]
          exact ih _ line (lt_of_le_of_lt ((List.dropWhile_sublist _).length_le) hcs)
        · rw [if_neg hal]
          by_cases hdig : c.isDigit = true
          · rw [if_pos hdig]
            simp only [errOf_map]
            have hrec : lexRecognizedChar c = true := by simp [lexRecognizedChar, hdig]
            have hcolon : c ≠ ':' := by intro h; subst h; exact absurd hdig (by decide)
            rw [lexErrSpecGo, if_neg hn, if_neg (by simp [hrec]), if_neg hcolon]
            have hw : ∀ d ∈ cs.takeWhile Char.isDigit,
                lexRecognizedChar d = true ∧ d ≠ '\n' ∧ d ≠ ':' := by
              intro d hd
              have hdp : d.isDigit = true := List.mem_takeWhile_imp hd
              refine ⟨by simp [lexRecognizedChar, hdp], ?_, ?_⟩
              · intro h; subst h; exact absurd hdp (by decide)
              · intro h; subst h; exact absurd hdp (by decide)
            conv_lhs => rw [← List.takeWhile_append_dropWhile Char.isDigit cs]
            rw [lexErrSpec_skip _ _ _ hw]
            exact ih _ line (lt_of_le_of_lt ((List.dropWhile_sublist _).length_le) hcs)
          · rw [if_neg hdig]
            by_cases hcol : c = ':'
            · subst hcol
              rw [if_pos rfl]
              by_cases hd : cs.head? = some '='
              · rw [if_pos hd]
                obtain ⟨cs', rfl⟩ : ∃ cs', cs = '=' :: cs' := by
                  cases cs with
                  | nil => simp at hd
                  | cons d cs' =>
                    simp only [List.head?_cons, Option.some.injEq] at hd
                    exact ⟨cs', by rw [hd]⟩
                rw [errOf_map]
                rw [lexErrSpecGo, if_neg (by decide), if_neg (by decide), if_pos rfl,
                  if_pos (by simp), lexErrSpecGo, if_neg (by decide), if_neg (by decide),
                  if_neg (by decide)]
                exact ih cs' line (by simp only [List.length_cons] at hcs; omega)
              · rw [if_neg hd]
                rw [lexErrSpecGo, if_neg (by decide), if_neg (by decide), if_pos rfl,
                  if_neg hd]
                rfl
            · rw [if_neg hcol]
              by_cases hlt : c = '<'
              · subst hlt
                rw [if_pos rfl,
                  lexErrSpecGo, if_neg (by decide), if_neg (by decide), if_neg (by decide)]
                by_cases hd : cs.head? = some '='
                · rw [if_pos hd]
                  obtain ⟨cs', rfl⟩ : ∃ cs', cs = '=' :: cs' := by
                    cases cs with
                    | nil => simp at hd
                    | cons d cs' =>
                      simp only [List.head?_cons, Option.some.injEq] at hd
                      exact ⟨cs', by rw [hd]⟩
                  rw [errOf_map, lexErrSpecGo, if_neg (by decide), if_neg (by decide),
                    if_neg (by decide)]
                  exact ih cs' line (by simp only [List.length_cons] at hcs; omega)
                · rw [if_neg hd]
                  by_cases hg : cs.head? = some '>'
                  · rw [if_pos hg]
                    obtain ⟨cs', rfl⟩ : ∃ cs', cs = '>' :: cs' := by
                      cases cs with
                      | nil => simp at hg
                      | cons d cs' =>
                        simp only [List.head?_cons, Option.some.injEq] at hg
                        exact ⟨cs', by rw [hg]⟩
                    rw [errOf_map, lexErrSpecGo, if_neg (by decide), if_neg (by decide),
                      if_neg (by decide)]
                    exact ih cs' line (by simp only [List.length_cons] at hcs; omega)
                  · rw [if_neg hg, errOf_map]
                    exact ih cs line hcs
              · rw [if_neg hlt]
                by_cases hgt : c = '>'
                · subst hgt
                  rw [if_pos rfl,
                    lexErrSpecGo, if_neg (by decide), if_neg (by decide), if_neg (by decide)]
                  by_cases hd : cs.head? = some '='
                  · rw [if_pos hd]
                    obtain ⟨cs', rfl⟩ : ∃ cs', cs = '=' :: cs' := by
                      cases cs with
                      | nil => simp at hd
                      | cons d cs' =>
                        simp only [List.head?_cons, Option.some.injEq] at hd
                        exact ⟨cs', by rw [hd]⟩
                    rw [errOf_map, lexErrSpecGo, if_neg (by decide), if_neg (by decide),
                      if_neg (by decide)]
                    exact ih cs' line (by simp only [List.length_cons] at hcs; omega)
                  · rw [if_neg hd, errOf_map]
                    exact ih cs line hcs
                · rw [if_neg hgt]
                  cases hss : singleSym c with
                  | some k =>
                    simp only [Option.elim, errOf_map]
                    have hrec : lexRecognizedChar c = true := by
                      simp [lexRecognizedChar, hss]
                    rw [lexErrSpecGo, if_neg hn, if_neg (by simp [hrec]), if_neg hcol]
                    exact ih cs line hcs
                  | none =>
                    simp only [Option.elim]
                    simp only [Bool.not_eq_true] at hsp hal hdig
                    have hrec' : lexRecognizedChar c = false := by
                      simp [lexRecognizedChar, hsp, hal, hdig, hcol, hlt, hgt, hss]
                    rw [lexErrSpecGo, if_neg hn, if_pos hrec']
                    rfl

/-- C9.  `Lexer.tokenize` fails exactly on the inputs the specification
describes: its success flag equals the clean-input predicate (every
byte in a recognized class and every `:` immediately followed by `=`),
and when it fails the `LexicalError` raised is precisely the one the
specification's walk of the input produces — `badChar` carrying the
first offending byte together with its 1-based source line, or
`badColon` carrying the line of the first `:` not followed by `=`. -/
theorem C9_lexical_errors (s : String) :
    ((tokenize s).isOk = lexCleanSpec s.data)
    ∧ (∀ e, tokenize s = .error e → lexErrSpecGo 1 s.data = some e) := by
  have h := lexGo_err (s.data.length + 1) s.data 1 (Nat.lt_succ_self _)
  constructor
  · calc (tokenize s).isOk
        = (errOf (tokenize s)).isNone := by cases tokenize s <;> rfl
      _ = (lexErrSpecGo 1 s.data).isNone := by
          rw [show errOf (tokenize s) = lexErrSpecGo 1 s.data from h.symm]
      _ = lexCleanSpec s.data := lexErrSpec_none s.data 1
  · intro e he
    refine h.trans ?_
    show errOf (tokenize s) = some e
    rw [he]
    rfl


/-- Witness for C9 on the input `"?"`: the theorem itself reports the
offending byte `?` on line 1. -/
theorem C9_lexical_errors_witness :
    lexErrSpecGo 1 "?".data = some (.badChar '?' 1) :=
  (C9_lexical_errors "?").2 _ (by rfl)


/-! ## IR generation determinism (C8) -/

/-- C8.  `TACGenerator.generate` is deterministic: its output depends
only on the AST and on the instance's counter/scope state (`tempCount`,
`labelCount`, `currentTable`, `procLabels`) — in particular NOT on any
quadruples left in `code` from an earlier run, since `generate` resets
`code` first.  Two runs from states agreeing on those fields (as two
fresh instances do, with both counters at 0) produce identical
quadruple sequences: same ops, arguments, results and ids in the same
order. -/
theorem C8_tac_determinism (g1 g2 : TacGen) (ast : ProgramNode)
    (ht : g1.tempCount = g2.tempCount) (hl : g1.labelCount = g2.labelCount)
    (hc : g1.currentTable = g2.currentTable) (hp : g1.procLabels = g2.procLabels) :
    (tacGenerateFrom g1 ast).code = (tacGenerateFrom g2 ast).code := by
  obtain ⟨c1, t1, l1, tb1, p1⟩ := g1
  obtain ⟨c2, t2, l2, tb2, p2⟩ := g2
  cases ht
  cases hl
  cases hc
  cases hp
  rfl

/-- Witness for C8: two instances whose states differ only in the stale
`code` buffer (one holds a leftover quadruple, the other is empty)
generate identical sequences for a small program, by the theorem
itself. -/
theorem C8_tac_determinism_witness :
    (tacGenerateFrom ⟨[⟨0, "STALE", "", "", ""⟩], 5, 7, tbEmpty, []⟩
        ⟨"p", .mk none none [] [.writeS [.num 1]]⟩).code
      = (tacGenerateFrom ⟨[], 5, 7, tbEmpty, []⟩
        ⟨"p", .mk none none [] [.writeS [.num 1]]⟩).code :=
  C8_tac_determinism _ _ _ rfl rfl rfl rfl


end PL0
